import Mathlib

/-!
Verification development for the polochon media library core
(package library in the Go sources, together with the slug helper of
lib/video.go and the walk callbacks of lib/library/index.go).

The Go code is shallowly embedded:
* filesystem paths are lists of segments (strings); path.Dir is dropLast,
  path.Base is the last segment, filepath.Join appends;
* the filesystem is a set of file entries (with optional sidecar payload
  for .nfo files), a set of directory entries and a set of stuck paths on
  which os.RemoveAll fails (the EPERM-style failure mode);
* each Library operation is a state-passing function returning the error
  (if any) together with the state at the moment of return, exactly as a
  Go method returning early leaves the process state as mutated so far;
* the media_index package is not part of the provided sources, so the two
  indexes are modelled from the spec (section 4.1 / 4.2), as association
  lists; every such definition is marked in its doc comment.
-/

set_option autoImplicit false


/-- A filesystem path, as a list of segments. path.Dir drops the last
segment, path.Base is the last segment, filepath.Join appends. -/
abbrev GoPath := List String

/-- path.Dir of the Go sources: the containing directory. -/
def pathDir (p : GoPath) : GoPath := p.dropLast

/-- path.Base of the Go sources: the file name. -/
def pathBase (p : GoPath) : String := p.getLast?.getD ""

/-- Boolean path-ancestry test: p is an ancestor of (or equal to) q. -/
def pfxOf : GoPath → GoPath → Bool
  | [], _ => true
  | _ :: _, [] => false
  | a :: as, b :: bs => a = b && pfxOf as bs

/-- Contents of a sidecar (.nfo) file, as reconstructed by the nfo codec:
a movie sidecar carries the movie imdb id, an episode sidecar carries the
show id / season / episode, a show sidecar carries the show imdb id.
Anything else is unreadable for the requested type. -/
inductive NfoData where
  | movieNfo (imdbID : String)
  | episodeNfo (showImdbID showTitle : String) (season episode : Nat)
  | showNfo (imdbID : String)
  | corrupt
  deriving DecidableEq, Repr

/-- The filesystem: file entries (paths, with an optional sidecar payload
used when the file is read as an nfo document), directory entries, and the
set of paths on which os.RemoveAll fails (permission-style errors). -/
structure FS where
  files : List (GoPath × Option NfoData)
  dirs : List GoPath
  stuck : List GoPath
  deriving DecidableEq, Repr

/-- A file entry exists at this path. -/
def hasFile (fs : FS) (p : GoPath) : Bool := fs.files.any (fun q => q.1 = p)

/-- A directory entry exists at this path. -/
def hasDir (fs : FS) (p : GoPath) : Bool := fs.dirs.any (fun q => q = p)

/-- The exists helper of the Go sources: the path exists on disk. -/
def fsExists (fs : FS) (p : GoPath) : Bool := hasFile fs p || hasDir fs p

/-- Sidecar payload of the file at this path, if the file exists. -/
def fileData (fs : FS) (p : GoPath) : Option (Option NfoData) :=
  (fs.files.find? (fun q => q.1 = p)).map (fun q => q.2)

/-- Library errors of the Go sources (library package and media index). -/
inductive LibErr where
  | missingMovieFilePath
  | missingMovieImageURL
  | missingShowImageURL
  | missingShowEpisodeFilePath
  | invalidIndexVideoType
  | notFound
  | fsError
  | nfoReadError
  deriving DecidableEq, Repr

/-- Removal of the whole subtree rooted at p, from both files and dirs. -/
def pruneFS (fs : FS) (p : GoPath) : FS :=
  { fs with
    files := fs.files.filter (fun q => ¬ pfxOf p q.1)
    dirs := fs.dirs.filter (fun q => ¬ pfxOf p q) }

/-- os.RemoveAll: removes p and everything below it; removing a missing
path is not an error; fails without touching anything when p is stuck. -/
def removeAll (fs : FS) (p : GoPath) : Except LibErr FS :=
  if p ∈ fs.stuck then .error .fsError else .ok (pruneFS fs p)

/-- os.Mkdir: fails if the path already exists, else records the dir. -/
def mkdir (fs : FS) (p : GoPath) : Except LibErr FS :=
  if fsExists fs p then .error .fsError else .ok { fs with dirs := p :: fs.dirs }

/-- os.Rename of a file: fails if the source file is missing; moves the
entry (with its payload) to the destination path. -/
def rename (fs : FS) (src dst : GoPath) : Except LibErr FS :=
  match fs.files.find? (fun q => q.1 = src) with
  | none => .error .fsError
  | some entry =>
    .ok { fs with files := (dst, entry.2) :: (fs.files.filter (fun q => q.1 ≠ src)).filter (fun q => q.1 ≠ dst) }

/-- os.Symlink as used by the library: the error is only logged, so the
embedding returns the filesystem directly; the link appears as a plain
file entry at the old location when that location is free. -/
def symlinkBestEffort (fs : FS) (link : GoPath) : FS :=
  if fsExists fs link then fs
  else { fs with files := (link, none) :: fs.files }

/-- writeNFOFile: writes the sidecar document at the given path
(overwriting any previous entry). The embedding models the write as
always succeeding. -/
def writeNFO (fs : FS) (p : GoPath) (d : NfoData) : FS :=
  { fs with files := (p, some d) :: fs.files.filter (fun q => q.1 ≠ p) }

/-- download(url, savePath): modelled as a successful retrieval creating
the destination file. -/
def downloadTo (fs : FS) (p : GoPath) : FS :=
  { fs with files := (p, none) :: fs.files.filter (fun q => q.1 ≠ p) }

/-- Extension of a file name, in the manner of path.Ext of the Go
standard library: the suffix starting at the final dot, empty when the
name has no dot. -/
def extOfSeg (s : String) : String :=
  let rev := s.toList.reverse
  let tail := rev.takeWhile (fun c => c ≠ '.')
  if tail.length = rev.length then "" else String.mk ('.' :: tail.reverse)

/-- File name with its extension (final dot included) removed; the whole
name when it has no dot. Modelled from the spec: the File helper
PathWithoutExt of the polochon lib package is not under the provided
sources; the spec describes the sidecar as the file without extension
plus .nfo. -/
def stripExtSeg (s : String) : String :=
  let cs := s.toList
  let tail := cs.reverse.takeWhile (fun c => c ≠ '.')
  if tail.length = cs.length then s
  else String.mk (cs.take (cs.length - tail.length - 1))

/-- Sidecar path of a media file: same directory, extension replaced by
.nfo (spec section 6, File.NfoPath in the Go sources). -/
def nfoPathOf (p : GoPath) : GoPath :=
  pathDir p ++ [stripExtSeg (pathBase p) ++ ".nfo"]

/-- Subtitle path of a media file: extension replaced by .srt
(DeleteShowEpisode removes PathWithoutExt plus .srt). -/
def srtPathOf (p : GoPath) : GoPath :=
  pathDir p ++ [stripExtSeg (pathBase p) ++ ".srt"]

/-- polochon.Movie, restricted to the fields the library reads. -/
structure Movie where
  imdbID : String
  title : String
  year : Nat
  path : GoPath
  fanart : String
  thumb : String
  deriving DecidableEq, Repr

/-- polochon.Show, restricted to the fields the library reads. -/
structure TvShow where
  imdbID : String
  title : String
  fanart : String
  banner : String
  poster : String
  deriving DecidableEq, Repr

/-- polochon.ShowEpisode, restricted to the fields the library reads.
epShow is the optional attached Show object (field Show in Go). -/
structure ShowEpisode where
  showImdbID : String
  showTitle : String
  season : Nat
  episode : Nat
  path : GoPath
  epShow : Option TvShow
  deriving DecidableEq, Repr

/-- Library configuration: the two storage roots and the recognized
video file extensions. -/
structure LibConfig where
  movieDir : GoPath
  showDir : GoPath
  videoExts : List String
  deriving DecidableEq, Repr

/-- getMovieDir of the Go sources: MovieDir/

"Title (Year)", no year suffix when the year is zero. -/
def getMovieDirPath (cfg : LibConfig) (m : Movie) : GoPath :=
  if m.year ≠ 0 then cfg.movieDir ++ [m.title ++ " (" ++ toString m.year ++ ")"]
  else cfg.movieDir ++ [m.title]

/-- getShowDir of the Go sources: ShowDir/ShowTitle. -/
def getShowDirPath (cfg : LibConfig) (ep : ShowEpisode) : GoPath :=
  cfg.showDir ++ [ep.showTitle]

/-- getSeasonDir of the Go sources: ShowDir/ShowTitle/Season N. -/
def getSeasonDirPath (cfg : LibConfig) (ep : ShowEpisode) : GoPath :=
  cfg.showDir ++ [ep.showTitle, "Season " ++ toString ep.season]

/-- showNFOPath of the Go sources: tvshow.nfo inside the show dir. -/
def showNFOPathOf (d : GoPath) : GoPath := d ++ ["tvshow.nfo"]

/-- Modelled from the spec: MovieFanartPath, artwork stored alongside the
relocated movie file (the polochon lib File helpers are not under the
provided sources). -/
def movieFanartPathOf (p : GoPath) : GoPath :=
  pathDir p ++ [stripExtSeg (pathBase p) ++ "-fanart.jpg"]

/-- Modelled from the spec: MovieThumbPath, artwork stored alongside the
relocated movie file. -/
def movieThumbPathOf (p : GoPath) : GoPath :=
  pathDir p ++ [stripExtSeg (pathBase p) ++ ".jpg"]

/-- Modelled from the spec: MovieIndex (media_index package, not under
the provided sources), a mapping from movie imdb id to the canonical
file path, as an association list. -/
abbrev MovieIndex := List (String × GoPath)

/-- Modelled from the spec: MovieIndex.Has. -/
def mIdxHas (i : MovieIndex) (id : String) : Bool := i.any (fun e => e.1 = id)

/-- Modelled from the spec: MovieIndex.MoviePath lookup (without the
NotFound wrapping, which the callers add). -/
def mIdxLookup (i : MovieIndex) (id : String) : Option GoPath :=
  (i.find? (fun e => e.1 = id)).map (fun e => e.2)

/-- Modelled from the spec: MovieIndex.Add, overwriting any previous
entry with the same id. -/
def mIdxAdd (i : MovieIndex) (id : String) (p : GoPath) : MovieIndex :=
  (id, p) :: i.filter (fun e => e.1 ≠ id)

/-- Modelled from the spec: MovieIndex.Remove, NotFound when absent. -/
def mIdxRemove (i : MovieIndex) (id : String) : Except LibErr MovieIndex :=
  if mIdxHas i id then .ok (i.filter (fun e => e.1 ≠ id)) else .error .notFound

/-- Episodes of one season: episode number to file path. -/
abbrev EpMap := List (Nat × GoPath)

/-- Seasons of one show: season number to its episodes. -/
abbrev SeasonMap := List (Nat × EpMap)

/-- Modelled from the spec: ShowIndex (media_index package, not under
the provided sources), the three-level mapping show / season / episode,
as nested association lists. -/
abbrev ShowIndex := List (String × SeasonMap)

/-- Overwriting insertion into the episodes of a season. -/
def epsAdd (eps : EpMap) (en : Nat) (p : GoPath) : EpMap :=
  (en, p) :: eps.filter (fun q => q.1 ≠ en)

/-- Insertion into a season map, materializing the season if needed. -/
def seasonsAdd : SeasonMap → Nat → Nat → GoPath → SeasonMap
  | [], sn, en, p => [(sn, [(en, p)])]
  | (s, eps) :: rest, sn, en, p =>
    if s = sn then (s, epsAdd eps en p) :: rest
    else (s, eps) :: seasonsAdd rest sn en p

/-- Modelled from the spec: ShowIndex.Add, inserting the episode and
materializing its season and show entries when necessary; overwrite on
the same identifier triple. -/
def sIdxAdd : ShowIndex → String → Nat → Nat → GoPath → ShowIndex
  | [], id, sn, en, p => [(id, [(sn, [(en, p)])])]
  | (i, seasons) :: rest, id, sn, en, p =>
    if i = id then (i, seasonsAdd seasons sn en p) :: rest
    else (i, seasons) :: sIdxAdd rest id sn en p

/-- Modelled from the spec: ShowIndex.HasEpisode. -/
def sIdxHasEpisode (si : ShowIndex) (id : String) (sn en : Nat) : Bool :=
  si.any (fun sh =>
    sh.1 = id && sh.2.any (fun se => se.1 = sn && se.2.any (fun q => q.1 = en)))

/-- Removal of an episode entry, keeping its (possibly now empty) season
entry; the cascade removal of empty ancestors is left to the caller. -/
def sIdxRemoveEpisodeRaw (si : ShowIndex) (id : String) (sn en : Nat) : ShowIndex :=
  si.map (fun sh =>
    if sh.1 = id then
      (sh.1, sh.2.map (fun se =>
        if se.1 = sn then (se.1, se.2.filter (fun q => q.1 ≠ en)) else se))
    else sh)

/-- Modelled from the spec: ShowIndex.RemoveEpisode, NotFound when the
episode is absent. -/
def sIdxRemoveEpisode (si : ShowIndex) (id : String) (sn en : Nat) :
    Except LibErr ShowIndex :=
  if sIdxHasEpisode si id sn en then .ok (sIdxRemoveEpisodeRaw si id sn en)
  else .error .notFound

/-- The season has at least one episode entry. -/
def sIdxSeasonNonEmpty (si : ShowIndex) (id : String) (sn : Nat) : Bool :=
  si.any (fun sh => sh.1 = id && sh.2.any (fun se => se.1 = sn && !se.2.isEmpty))

/-- Modelled from the spec: ShowIndex.IsSeasonEmpty; an absent show or
season counts as empty. -/
def sIdxIsSeasonEmpty (si : ShowIndex) (id : String) (sn : Nat) : Bool :=
  !sIdxSeasonNonEmpty si id sn

/-- The show has at least one season entry. -/
def sIdxShowNonEmpty (si : ShowIndex) (id : String) : Bool :=
  si.any (fun sh => sh.1 = id && !sh.2.isEmpty)

/-- Modelled from the spec: ShowIndex.IsShowEmpty; an absent show counts
as empty. -/
def sIdxIsShowEmpty (si : ShowIndex) (id : String) : Bool :=
  !sIdxShowNonEmpty si id

/-- Modelled from the spec: ShowIndex.RemoveSeason, deleting the season
entry of the show. -/
def sIdxRemoveSeason (si : ShowIndex) (id : String) (sn : Nat) : ShowIndex :=
  si.map (fun sh => if sh.1 = id then (sh.1, sh.2.filter (fun se => se.1 ≠ sn)) else sh)

/-- Modelled from the spec: ShowIndex.RemoveShow, deleting the show
entry. -/
def sIdxRemoveShow (si : ShowIndex) (id : String) : ShowIndex :=
  si.filter (fun sh => sh.1 ≠ id)

/-- The show has an entry in the index. -/
def sIdxHasShow (si : ShowIndex) (id : String) : Bool :=
  si.any (fun sh => sh.1 = id)

/-- The full mutable state of a Library value: the filesystem plus the
two indexes. -/
structure LibState where
  fs : FS
  movieIndex : MovieIndex
  showIndex : ShowIndex
  deriving DecidableEq, Repr

/-- Result of a Library operation: the returned error, if any, together
with the state (filesystem and indexes) at the moment of return. -/
abbrev LRes := Option LibErr × LibState

/-- newMovieFromPath of the Go sources: reconstructs a movie from the
sidecar next to the file; fails when the sidecar is missing or is not a
movie document. -/
def newMovieFromPath (fs : FS) (p : GoPath) : Except LibErr Movie :=
  match fileData fs (nfoPathOf p) with
  | some (some (.movieNfo id)) =>
    .ok { imdbID := id, title := "", year := 0, path := p, fanart := "", thumb := "" }
  | _ => .error .nfoReadError

/-- newEpisodeFromPath of the Go sources: reconstructs an episode from
the sidecar next to the file. -/
def newEpisodeFromPath (fs : FS) (p : GoPath) : Except LibErr ShowEpisode :=
  match fileData fs (nfoPathOf p) with
  | some (some (.episodeNfo sid stitle sn en)) =>
    .ok { showImdbID := sid, showTitle := stitle, season := sn, episode := en,
          path := p, epShow := none }
  | _ => .error .nfoReadError

/-- newShowFromPath of the Go sources: reads the show document at the
given sidecar path. -/
def newShowFromPath (fs : FS) (p : GoPath) : Except LibErr TvShow :=
  match fileData fs p with
  | some (some (.showNfo id)) =>
    .ok { imdbID := id, title := "", fanart := "", banner := "", poster := "" }
  | _ => .error .nfoReadError

/-- GetMovie of the Go sources: index lookup, then reconstruction from
the sidecar on disk. -/
def getMovieL (s : LibState) (id : String) : Except LibErr Movie :=
  match mIdxLookup s.movieIndex id with
  | none => .error .notFound
  | some p => newMovieFromPath s.fs p

/-- Modelled from the spec: ShowIndex.EpisodePath. -/
def sIdxEpisodePath (si : ShowIndex) (id : String) (sn en : Nat) : Option GoPath :=
  match si.find? (fun sh => sh.1 = id) with
  | none => none
  | some sh =>
    match sh.2.find? (fun se => se.1 = sn) with
    | none => none
    | some se => (se.2.find? (fun q => q.1 = en)).map (fun q => q.2)

/-- GetEpisode of the Go sources: index lookup, then reconstruction from
the sidecar on disk. -/
def getEpisodeL (s : LibState) (id : String) (sn en : Nat) : Except LibErr ShowEpisode :=
  match sIdxEpisodePath s.showIndex id sn en with
  | none => .error .notFound
  | some p => newEpisodeFromPath s.fs p

/-- DeleteMovie of the Go sources: recursively remove the containing
directory of the movie file, then remove the index entry; a failed
removal returns at once, leaving the index untouched. -/
def deleteMovieL (m : Movie) (s : LibState) : LRes :=
  match removeAll s.fs (pathDir m.path) with
  | .error e => (some e, s)
  | .ok fs1 =>
    match mIdxRemove s.movieIndex m.imdbID with
    | .error e => (some e, { s with fs := fs1 })
    | .ok idx => (none, { s with fs := fs1, movieIndex := idx })

/-- NewShowFromEpisode, modelled from the spec: a minimal Show built
from the identifiers carried by the episode; GetDetails (an external
metadata fetch, outside the provided sources) is modelled as a
successful fetch that leaves the constructed show unchanged. -/
def newShowFromEpisode (ep : ShowEpisode) : TvShow :=
  { imdbID := ep.showImdbID, title := ep.showTitle,
    fanart := "", banner := "", poster := "" }

/-- addShow of the Go sources (show materialization): nothing to do when
the show sidecar already exists; otherwise create the show dir if
needed, write the show sidecar, then require and download the three
artwork images. -/
def addShowL (cfg : LibConfig) (ep : ShowEpisode) (s : LibState) : LRes :=
  let dir := getShowDirPath cfg ep
  let nfoP := showNFOPathOf dir
  if fsExists s.fs nfoP then (none, s)
  else
    let sh := match ep.epShow with
      | some sh => sh
      | none => newShowFromEpisode ep
    match (if !fsExists s.fs dir then mkdir s.fs dir else .ok s.fs) with
    | .error e => (some e, s)
    | .ok fs1 =>
      let fs2 := writeNFO fs1 nfoP (.showNfo sh.imdbID)
      let s2 : LibState := { s with fs := fs2 }
      if sh.fanart = "" || sh.banner = "" || sh.poster = "" then
        (some .missingShowImageURL, s2)
      else
        let fs3 := downloadTo fs2 (dir ++ ["fanart.jpg"])
        let fs4 := downloadTo fs3 (dir ++ ["poster.jpg"])
        let fs5 := downloadTo fs4 (dir ++ ["banner.jpg"])
        (none, { s with fs := fs5 })

/-- The part of AddMovie after the duplicate check (lines 124 to 197 of
the Go sources): compute the destination, return at once when the file
is already there, otherwise clear a stale destination, create it, move
the file, link the old location best-effort, write the sidecar, register
the index entry, then require and download the two artwork images. -/
def addMovieInstall (cfg : LibConfig) (m : Movie) (s : LibState) : LRes :=
  let storePath := getMovieDirPath cfg m
  if pathDir m.path = storePath then (none, s)
  else
    match (if fsExists s.fs storePath then removeAll s.fs storePath else .ok s.fs) with
    | .error e => (some e, s)
    | .ok fs1 =>
      match mkdir fs1 storePath with
      | .error e => (some e, { s with fs := fs1 })
      | .ok fs2 =>
        let newPath := storePath ++ [pathBase m.path]
        match rename fs2 m.path newPath with
        | .error e => (some e, { s with fs := fs2 })
        | .ok fs3 =>
          let fs4 := symlinkBestEffort fs3 m.path
          let fs5 := writeNFO fs4 (nfoPathOf newPath) (.movieNfo m.imdbID)
          let s5 : LibState :=
            { s with fs := fs5, movieIndex := mIdxAdd s.movieIndex m.imdbID newPath }
          if m.fanart = "" || m.thumb = "" then (some .missingMovieImageURL, s5)
          else
            let fs6 := downloadTo fs5 (movieFanartPathOf newPath)
            let fs7 := downloadTo fs6 (movieThumbPathOf newPath)
            (none, { s5 with fs := fs7 })

/-- AddMovie of the Go sources: reject an empty file path, supersede any
previously indexed copy through the full delete workflow, then install. -/
def addMovieL (cfg : LibConfig) (m : Movie) (s : LibState) : LRes :=
  if m.path = [] then (some .missingMovieFilePath, s)
  else if mIdxHas s.movieIndex m.imdbID then
    match getMovieL s m.imdbID with
    | .error e => (some e, s)
    | .ok oldMovie =>
      match deleteMovieL oldMovie s with
      | (some e, s1) => (some e, s1)
      | (none, s1) => addMovieInstall cfg m s1
  else addMovieInstall cfg m s

/-- Season-level cascade step of DeleteShowEpisode: when the season is
now empty, recursively delete the season directory and remove the season
index entry. -/
def cascadeSeasonStep (cfg : LibConfig) (se : ShowEpisode) (s : LibState) : LRes :=
  if sIdxIsSeasonEmpty s.showIndex se.showImdbID se.season then
    match removeAll s.fs (getSeasonDirPath cfg se) with
    | .error e => (some e, s)
    | .ok fs4 =>
      (none, { s with
                fs := fs4
                showIndex := sIdxRemoveSeason s.showIndex se.showImdbID se.season })
  else (none, s)

/-- Show-level cascade step of DeleteShowEpisode: when the show is now
empty, recursively delete the show directory and remove the show index
entry. -/
def cascadeShowStep (cfg : LibConfig) (se : ShowEpisode) (s : LibState) : LRes :=
  if sIdxIsShowEmpty s.showIndex se.showImdbID then
    match removeAll s.fs (getShowDirPath cfg se) with
    | .error e => (some e, s)
    | .ok fs5 =>
      (none, { s with
                fs := fs5
                showIndex := sIdxRemoveShow s.showIndex se.showImdbID })
  else (none, s)

/-- DeleteShowEpisode of the Go sources: remove the episode file, its
sidecar and subtitle, remove the episode index entry, then run the
season cascade followed by the show cascade. -/
def deleteShowEpisodeL (cfg : LibConfig) (se : ShowEpisode) (s : LibState) : LRes :=
  match removeAll s.fs se.path with
  | .error e => (some e, s)
  | .ok fs1 =>
    match removeAll fs1 (nfoPathOf se.path) with
    | .error e => (some e, { s with fs := fs1 })
    | .ok fs2 =>
      match removeAll fs2 (srtPathOf se.path) with
      | .error e => (some e, { s with fs := fs2 })
      | .ok fs3 =>
        match sIdxRemoveEpisode s.showIndex se.showImdbID se.season se.episode with
        | .error e => (some e, { s with fs := fs3 })
        | .ok idx1 =>
          match cascadeSeasonStep cfg se { s with fs := fs3, showIndex := idx1 } with
          | (some e, s4) => (some e, s4)
          | (none, s4) => cascadeShowStep cfg se s4

/-- The part of AddShowEpisode after the duplicate check (lines 296 to
339 of the Go sources): materialize the show, create the season dir if
needed, return at once when the file is already in place, otherwise move
it, link the old location best-effort, write the sidecar and register
the index entry. -/
def addEpisodeInstall (cfg : LibConfig) (ep : ShowEpisode) (s : LibState) : LRes :=
  match addShowL cfg ep s with
  | (some e, s1) => (some e, s1)
  | (none, s1) =>
    let seasonDir := getSeasonDirPath cfg ep
    match (if !fsExists s1.fs seasonDir then mkdir s1.fs seasonDir else .ok s1.fs) with
    | .error e => (some e, s1)
    | .ok fs2 =>
      let s2 : LibState := { s1 with fs := fs2 }
      if pathDir ep.path = seasonDir then (none, s2)
      else
        let newPath := seasonDir ++ [pathBase ep.path]
        match rename s2.fs ep.path newPath with
        | .error e => (some e, s2)
        | .ok fs3 =>
          let fs4 := symlinkBestEffort fs3 ep.path
          let fs5 := writeNFO fs4 (nfoPathOf newPath)
            (.episodeNfo ep.showImdbID ep.showTitle ep.season ep.episode)
          (none, { s2 with
                    fs := fs5
                    showIndex := sIdxAdd s2.showIndex ep.showImdbID ep.season ep.episode newPath })

/-- AddShowEpisode of the Go sources: reject an empty file path,
supersede any previously indexed copy through the full delete workflow,
then install. -/
def addShowEpisodeL (cfg : LibConfig) (ep : ShowEpisode) (s : LibState) : LRes :=
  if ep.path = [] then (some .missingShowEpisodeFilePath, s)
  else if sIdxHasEpisode s.showIndex ep.showImdbID ep.season ep.episode then
    match getEpisodeL s ep.showImdbID ep.season ep.episode with
    | .error e => (some e, s)
    | .ok oldEp =>
      match deleteShowEpisodeL cfg oldEp s with
      | (some e, s1) => (some e, s1)
      | (none, s1) => addEpisodeInstall cfg ep s1
  else addEpisodeInstall cfg ep s

/-- The extension test of the two scan loops: path.Ext of the file
against the configured video extensions. -/
def videoExtMatch (cfg : LibConfig) (p : GoPath) : Bool :=
  cfg.videoExts.any (fun e => extOfSeg (pathBase p) = e)

/-- buildMovieIndex of the Go sources, as a function of the filesystem:
walk every file under the movie root; for each file with a video
extension, reconstruct the movie from its sidecar and insert it; a file
whose reconstruction fails is logged and skipped. The walk callback
returns nil on every branch, so the walk itself never yields an error. -/
def buildMovieIndexFS (cfg : LibConfig) (fs : FS) : MovieIndex :=
  fs.files.foldl
    (fun idx entry =>
      if pfxOf cfg.movieDir entry.1 && videoExtMatch cfg entry.1 then
        match newMovieFromPath fs entry.1 with
        | .error _ => idx
        | .ok m => mIdxAdd idx m.imdbID m.path
      else idx)
    []

/-- scanEpisodes of the Go sources, as a function of the filesystem:
walk every file under one show directory; for each file with a video
extension, reconstruct the episode from its sidecar, overwrite its show
id with the id read from the show sidecar, and insert it; reconstruction
failures are logged and skipped. -/
def scanEpisodesFS (cfg : LibConfig) (fs : FS) (imdbID : String)
    (showRoot : GoPath) (si : ShowIndex) : ShowIndex :=
  fs.files.foldl
    (fun idx entry =>
      if pfxOf showRoot entry.1 && videoExtMatch cfg entry.1 then
        match newEpisodeFromPath fs entry.1 with
        | .error _ => idx
        | .ok ep => sIdxAdd idx imdbID ep.season ep.episode ep.path
      else idx)
    si

/-- The immediate child directories of a root: the first level the show
walk inspects before returning filepath.SkipDir. -/
def immediateChildDirs (fs : FS) (root : GoPath) : List GoPath :=
  fs.dirs.filter (fun d => d.length = root.length + 1 && pfxOf root d)

/-- buildShowIndex of the Go sources, as a function of the filesystem:
visit only the immediate child directories of the show root; a child
whose tvshow.nfo is missing or unreadable is logged and skipped,
otherwise its subtree is scanned for episodes. -/
def buildShowIndexFS (cfg : LibConfig) (fs : FS) : ShowIndex :=
  (immediateChildDirs fs cfg.showDir).foldl
    (fun idx d =>
      match newShowFromPath fs (showNFOPathOf d) with
      | .error _ => idx
      | .ok sh => scanEpisodesFS cfg fs sh.imdbID d idx)
    []

/-- RebuildIndex of the Go sources: clear both indexes, then repopulate
them by scanning the two storage roots. The two workers read the shared
filesystem and write disjoint indexes, so their concurrent run
linearizes to this sequential form; every branch of both walk callbacks
returns nil, so neither worker ever sends an error on the channel and
the operation returns no error. -/
def rebuildIndexL (cfg : LibConfig) (s : LibState) : LRes :=
  (none, { s with
            movieIndex := buildMovieIndexFS cfg s.fs
            showIndex := buildShowIndexFS cfg s.fs })

/-- One event of a filepath.Walk: either a visited path with its
FileInfo, or a path whose lstat failed, in which case Walk hands the
callback a nil FileInfo together with the error. -/
inductive WalkEntry where
  | found (p : GoPath) (isDir : Bool)
  | failed (p : GoPath)
  deriving DecidableEq, Repr

/-- What a walk callback invocation does: return nil, return
filepath.SkipDir, return an error (aborting the walk), or dereference
the nil FileInfo it was handed (a runtime panic in Go). -/
inductive CbResult where
  | contNil
  | skipDir
  | abort (e : LibErr)
  | nilDeref
  deriving DecidableEq, Repr

/-- The walk callback of buildMovieIndex (lib/library/index.go lines 53
to 91): a walk error is checked first, logged and swallowed; directories
are skipped; non-video files are skipped; a failed reconstruction is
logged and skipped; a reconstructed movie is added to the index. -/
def movieWalkStep (cfg : LibConfig) (fs : FS) (idx : MovieIndex) :
    WalkEntry → CbResult × MovieIndex
  | .failed _ => (.contNil, idx)
  | .found p isDir =>
    if isDir then (.contNil, idx)
    else if !videoExtMatch cfg p then (.contNil, idx)
    else
      match newMovieFromPath fs p with
      | .error _ => (.contNil, idx)
      | .ok m => (.contNil, mIdxAdd idx m.imdbID m.path)

/-- The walk callback of scanEpisodes (lib/library/index.go lines 145 to
184): same shape as the movie callback, adding episodes under the show
id passed by the caller. -/
def episodeWalkStep (cfg : LibConfig) (fs : FS) (imdbID : String)
    (idx : ShowIndex) : WalkEntry → CbResult × ShowIndex
  | .failed _ => (.contNil, idx)
  | .found p isDir =>
    if isDir then (.contNil, idx)
    else if !videoExtMatch cfg p then (.contNil, idx)
    else
      match newEpisodeFromPath fs p with
      | .error _ => (.contNil, idx)
      | .ok ep => (.contNil, sIdxAdd idx imdbID ep.season ep.episode ep.path)

/-- The walk callback of buildShowIndex (lib/library/index.go lines 104
to 132). Its first action is file.IsDir(), before any check of the err
argument: on a failed entry the FileInfo is nil and the call is a nil
dereference. On a successful entry it skips files, skips the root once,
skips a child whose tvshow.nfo cannot be read, and otherwise scans that
child for episodes and returns filepath.SkipDir. -/
def showWalkStep (cfg : LibConfig) (fs : FS) (rootWalked : Bool)
    (idx : ShowIndex) : WalkEntry → CbResult × Bool × ShowIndex
  | .failed _ => (.nilDeref, rootWalked, idx)
  | .found p isDir =>
    if !isDir then (.contNil, rootWalked, idx)
    else if !rootWalked then (.contNil, true, idx)
    else
      match newShowFromPath fs (showNFOPathOf p) with
      | .error _ => (.contNil, rootWalked, idx)
      | .ok sh => (.skipDir, rootWalked, scanEpisodesFS cfg fs sh.imdbID p idx)

/-- Runs the movie walk callback over a sequence of walk events, the way
filepath.Walk drives it: an error returned by the callback aborts the
walk and becomes the worker error; none is the process crash of a nil
dereference (never reached by this callback). -/
def runMovieWalk (cfg : LibConfig) (fs : FS) :
    List WalkEntry → MovieIndex → Option (Except LibErr MovieIndex)
  | [], idx => some (.ok idx)
  | e :: es, idx =>
    match movieWalkStep cfg fs idx e with
    | (.nilDeref, _) => none
    | (.abort err, _) => some (.error err)
    | (_, idx1) => runMovieWalk cfg fs es idx1

/-- Runs the scanEpisodes walk callback over a sequence of walk events,
in the same way. -/
def runEpisodeWalk (cfg : LibConfig) (fs : FS) (imdbID : String) :
    List WalkEntry → ShowIndex → Option (Except LibErr ShowIndex)
  | [], idx => some (.ok idx)
  | e :: es, idx =>
    match episodeWalkStep cfg fs imdbID idx e with
    | (.nilDeref, _) => none
    | (.abort err, _) => some (.error err)
    | (_, idx1) => runEpisodeWalk cfg fs imdbID es idx1

/-- The character class of the invalid-slug pattern of lib/video.go,
by code point: lowercase letters (97 to 122), digits (48 to 57), space
(32), underscore (95) and hyphen (45) survive the deletion pass. -/
def slugKeep (c : Char) : Bool :=
  (97 ≤ c.toNat && c.toNat ≤ 122) || (48 ≤ c.toNat && c.toNat ≤ 57) ||
    c.toNat = 32 || c.toNat = 95 || c.toNat = 45

/-- Whitespace in the sense of the Go regexp class \s, by code point:
tab, newline, form feed, carriage return, space. -/
def goWhitespace (c : Char) : Bool :=
  c.toNat = 32 || c.toNat = 9 || c.toNat = 10 || c.toNat = 12 || c.toNat = 13

/-- Worker of collapseWS; the flag records whether the scan stands
inside a whitespace run whose hyphen has already been emitted. -/
def collapseWSAux : Bool → List Char → List Char
  | _, [] => []
  | inRun, c :: cs =>
    if goWhitespace c then
      if inRun then collapseWSAux true cs else '-' :: collapseWSAux true cs
    else c :: collapseWSAux false cs

/-- Replacement of every maximal run of whitespace by one hyphen, the
effect of whiteSpacePattern.ReplaceAllString(text, separator). -/
def collapseWS (cs : List Char) : List Char := collapseWSAux false cs

/-- strings.Trim(text, separator): hyphens removed from both ends. -/
def trimHyphens (cs : List Char) : List Char :=
  ((cs.dropWhile (fun c => c = '-')).reverse.dropWhile (fun c => c = '-')).reverse

/-- The slug function of lib/video.go, on character lists: lowercase the
text, delete every character the invalid pattern matches, collapse
whitespace runs to hyphens, trim hyphens at both ends. strings.ToLower
is modelled on its ASCII behavior (Char.toLower); every character it
maps outside a-z is deleted by the following pass in either reading. -/
def slugChars (cs : List Char) : List Char :=
  trimHyphens (collapseWS ((cs.map Char.toLower).filter slugKeep))

/-- slug of lib/video.go, as a String function. -/
def slug (s : String) : String := String.mk (slugChars s.toList)

/-- A character legal in a finished slug: lowercase letter, digit,
underscore or hyphen. -/
def slugOutChar (c : Char) : Bool :=
  (97 ≤ c.toNat && c.toNat ≤ 122) || (48 ≤ c.toNat && c.toNat ≤ 57) ||
    c.toNat = 95 || c.toNat = 45

/-- Shared concrete configuration for witnesses: a movie root, a show
root, and one recognized video extension. -/
def cfgW : LibConfig := { movieDir := ["movies"], showDir := ["shows"], videoExts := [".mkv"] }

/-- An empty filesystem. -/
def fsEmptyW : FS := { files := [], dirs := [], stuck := [] }

/-- A movie already sitting in its canonical directory. -/
def movInPlaceW : Movie :=
  { imdbID := "tt001", title := "Foo", year := 2020,
    path := ["movies", "Foo (2020)", "foo.mkv"], fanart := "f", thumb := "t" }

/-- An episode already sitting in its canonical season directory, of a
show whose sidecar already exists. -/
def epInPlaceW : ShowEpisode :=
  { showImdbID := "tt100", showTitle := "Baz", season := 1, episode := 2,
    path := ["shows", "Baz", "Season 1", "ep2.mkv"], epShow := none }

/-- A library state carrying both in-place fixtures, with empty indexes. -/
def stInPlaceW : LibState :=
  { fs := { files := [(["movies", "Foo (2020)", "foo.mkv"], none),
                      (["shows", "Baz", "Season 1", "ep2.mkv"], none),
                      (["shows", "Baz", "tvshow.nfo"], some (.showNfo "tt100"))],
            dirs := [["movies"], ["movies", "Foo (2020)"], ["shows"],
                     ["shows", "Baz"], ["shows", "Baz", "Season 1"]],
            stuck := [] },
    movieIndex := [], showIndex := [] }

/-- A movie with no file path. -/
def movPathlessW : Movie :=
  { imdbID := "tt009", title := "Nope", year := 0, path := [], fanart := "", thumb := "" }

/-- An episode with no file path. -/
def epPathlessW : ShowEpisode :=
  { showImdbID := "tt900", showTitle := "None", season := 1, episode := 1,
    path := [], epShow := none }

/-- A movie with a source file but an empty fanart URL. -/
def movNoImageW : Movie :=
  { imdbID := "tt002", title := "Bar", year := 0,
    path := ["tmp", "bar.mkv"], fanart := "", thumb := "t" }

/-- A state holding the unorganized source file of movNoImageW. -/
def stNoImageW : LibState :=
  { fs := { files := [(["tmp", "bar.mkv"], none)],
            dirs := [["movies"], ["tmp"]], stuck := [] },
    movieIndex := [], showIndex := [] }

/-- A state over the empty filesystem with populated indexes. -/
def stPopulatedW : LibState :=
  { fs := fsEmptyW
    movieIndex := [("tt5", ["movies", "x"])]
    showIndex := [("tt6", [(1, [(1, ["shows", "y"])])])] }

/-- The same filesystem with empty indexes. -/
def stBlankW : LibState := { fs := fsEmptyW, movieIndex := [], showIndex := [] }

/-- A library state whose movie directory cannot be removed (stuck),
with the movie indexed. -/
def stStuckW : LibState :=
  { fs := { files := [(["movies", "Foo (2020)", "foo.mkv"], none)]
            dirs := [["movies"], ["movies", "Foo (2020)"]]
            stuck := [["movies", "Foo (2020)"]] }
    movieIndex := [("tt001", ["movies", "Foo (2020)", "foo.mkv"])]
    showIndex := [] }

/-- The same library state with nothing stuck. -/
def stDelOkW : LibState :=
  { fs := { files := [(["movies", "Foo (2020)", "foo.mkv"], none)]
            dirs := [["movies"], ["movies", "Foo (2020)"]]
            stuck := [] }
    movieIndex := [("tt001", ["movies", "Foo (2020)", "foo.mkv"])]
    showIndex := [] }

/-- The show has an entry for this season. -/
def sIdxHasSeason (si : ShowIndex) (id : String) (sn : Nat) : Bool :=
  si.any (fun sh => sh.1 = id && sh.2.any (fun sea => sea.1 = sn))

/-- The episode is the sole episode of a one-season show: every index
entry of this show holds only season sn, and that season holds only
episode en. -/
def sIdxSoleEpisode (si : ShowIndex) (id : String) (sn en : Nat) : Bool :=
  si.all (fun sh => sh.1 ≠ id ||
    sh.2.all (fun sea => sea.1 = sn && sea.2.all (fun q => q.1 = en)))

/-- The sole episode of a one-season show. -/
def epSoleW : ShowEpisode :=
  { showImdbID := "tt100", showTitle := "Baz", season := 1, episode := 1,
    path := ["shows", "Baz", "Season 1", "ep1.mkv"], epShow := none }

/-- A library state holding exactly that one episode, its sidecar and
the show sidecar, with the episode indexed. -/
def stSoleW : LibState :=
  { fs := { files := [(["shows", "Baz", "Season 1", "ep1.mkv"], none),
                      (["shows", "Baz", "Season 1", "ep1.nfo"], some (.episodeNfo "tt100" "Baz" 1 1)),
                      (["shows", "Baz", "tvshow.nfo"], some (.showNfo "tt100"))]
            dirs := [["shows"], ["shows", "Baz"], ["shows", "Baz", "Season 1"]]
            stuck := [] }
    movieIndex := []
    showIndex := [("tt100", [(1, [(1, ["shows", "Baz", "Season 1", "ep1.mkv"])])])] }

/-- A new copy of the movie tt001, arriving from an unorganized path
while an old copy is indexed. -/
def movDupW : Movie :=
  { imdbID := "tt001", title := "New", year := 2020,
    path := ["tmp", "new.mkv"], fanart := "f", thumb := "t" }

/-- The state holding the previously indexed copy of tt001 and the new
source file. -/
def sDupW : LibState :=
  { fs := { files := [(["movies", "Old (2019)", "old.mkv"], none),
                      (["movies", "Old (2019)", "old.nfo"], some (.movieNfo "tt001")),
                      (["tmp", "new.mkv"], none)]
            dirs := [["movies"], ["movies", "Old (2019)"], ["tmp"]]
            stuck := [] }
    movieIndex := [("tt001", ["movies", "Old (2019)", "old.mkv"])]
    showIndex := [] }

/-- A new copy of episode 1 of season 1 of show tt100, arriving from an
unorganized path while an old copy is indexed. -/
def epDupW : ShowEpisode :=
  { showImdbID := "tt100", showTitle := "Baz", season := 1, episode := 1,
    path := ["tmp", "new1.mkv"], epShow := none }

/-- The state holding the previously indexed copy of that episode, a
second episode that keeps the season alive, and the new source file. -/
def tDupW : LibState :=
  { fs := { files := [(["shows", "Baz", "Season 1", "old1.mkv"], none),
                      (["shows", "Baz", "Season 1", "old1.nfo"], some (.episodeNfo "tt100" "Baz" 1 1)),
                      (["shows", "Baz", "Season 1", "old2.mkv"], none),
                      (["shows", "Baz", "tvshow.nfo"], some (.showNfo "tt100")),
                      (["tmp", "new1.mkv"], none)]
            dirs := [["shows"], ["shows", "Baz"], ["shows", "Baz", "Season 1"], ["tmp"]]
            stuck := [] }
    movieIndex := []
    showIndex := [("tt100", [(1, [(1, ["shows", "Baz", "Season 1", "old1.mkv"]),
                                  (2, ["shows", "Baz", "Season 1", "old2.mkv"])])])] }

theorem pfxOf_refl (p : GoPath) : pfxOf p p = true := by
  induction p with
  | nil => rfl
  | cons a as ih => simp [pfxOf, ih]

theorem pfxOf_dropLast (p : GoPath) : pfxOf (pathDir p) p = true := by
  induction p with
  | nil => rfl
  | cons a as ih =>
    cases as with
    | nil => rfl
    | cons b bs => simpa [pathDir, pfxOf] using ih

theorem pathDir_append_base (d : GoPath) (b : String) :
    pathDir (d ++ [b]) = d := by
  simp [pathDir]

theorem hasFile_pruneFS_below (fs : FS) (p q : GoPath) (h : pfxOf p q = true) :
    hasFile (pruneFS fs p) q = false := by
  simp only [hasFile, pruneFS]
  rw [Bool.eq_false_iff]
  intro hc
  rcases List.any_eq_true.1 hc with ⟨e, he, he2⟩
  rcases List.mem_filter.1 he with ⟨_, hnot⟩
  simp only [decide_eq_true_eq] at he2 hnot
  exact absurd (he2 ▸ h) (by simpa using hnot)

theorem hasFile_pruneFS_self (fs : FS) (p : GoPath) :
    hasFile (pruneFS fs p) p = false :=
  hasFile_pruneFS_below fs p p (pfxOf_refl p)

theorem hasDir_pruneFS_below (fs : FS) (p q : GoPath) (h : pfxOf p q = true) :
    hasDir (pruneFS fs p) q = false := by
  simp only [hasDir, pruneFS]
  rw [Bool.eq_false_iff]
  intro hc
  rcases List.any_eq_true.1 hc with ⟨e, he, he2⟩
  rcases List.mem_filter.1 he with ⟨_, hnot⟩
  simp only [decide_eq_true_eq] at he2 hnot
  exact absurd (he2 ▸ h) (by simpa using hnot)

theorem hasFile_pruneFS_of_not (fs : FS) (p q : GoPath)
    (h : pfxOf p q = false) (hq : hasFile fs q = true) :
    hasFile (pruneFS fs p) q = true := by
  simp only [hasFile, pruneFS] at hq ⊢
  rcases List.any_eq_true.1 hq with ⟨e, he, he2⟩
  refine List.any_eq_true.2 ⟨e, List.mem_filter.2 ⟨he, ?_⟩, he2⟩
  simp only [decide_eq_true_eq] at he2
  simp [he2, h]

theorem slugOutChar_of_keep_not_ws (c : Char)
    (hk : slugKeep c = true) (hw : goWhitespace c = false) :
    slugOutChar c = true := by
  simp only [slugKeep, goWhitespace, slugOutChar, Bool.or_eq_true, Bool.and_eq_true,
    decide_eq_true_eq, Bool.or_eq_false_iff, decide_eq_false_iff_not] at hk hw ⊢
  omega

theorem slugKeep_of_out (c : Char) (h : slugOutChar c = true) : slugKeep c = true := by
  simp only [slugKeep, slugOutChar, Bool.or_eq_true, Bool.and_eq_true,
    decide_eq_true_eq] at h ⊢
  omega

theorem goWhitespace_of_out (c : Char) (h : slugOutChar c = true) :
    goWhitespace c = false := by
  simp only [goWhitespace, slugOutChar, Bool.or_eq_true, Bool.and_eq_true,
    decide_eq_true_eq, Bool.or_eq_false_iff, decide_eq_false_iff_not] at h ⊢
  omega

theorem toLower_of_out (c : Char) (h : slugOutChar c = true) : c.toLower = c := by
  have hn : ¬ (c.toNat ≥ 65 ∧ c.toNat ≤ 90) := by
    simp only [slugOutChar, Bool.or_eq_true, Bool.and_eq_true, decide_eq_true_eq] at h
    omega
  show (if c.toNat ≥ 65 ∧ c.toNat ≤ 90 then Char.ofNat (c.toNat + 32) else c) = c
  rw [if_neg hn]

theorem mem_collapseWSAux (l : List Char) : ∀ (b : Bool) (c : Char),
    c ∈ collapseWSAux b l → c = '-' ∨ (c ∈ l ∧ goWhitespace c = false) := by
  induction l with
  | nil => intro b c h; simp [collapseWSAux] at h
  | cons a as ih =>
    intro b c h
    unfold collapseWSAux at h
    by_cases hw : goWhitespace a = true
    · rw [if_pos hw] at h
      cases b with
      | true =>
        rcases ih true c h with h1 | ⟨h2, h3⟩
        · exact Or.inl h1
        · exact Or.inr ⟨List.mem_cons_of_mem a h2, h3⟩
      | false =>
        rcases List.mem_cons.1 h with rfl | h4
        · exact Or.inl rfl
        · rcases ih true c h4 with h1 | ⟨h2, h3⟩
          · exact Or.inl h1
          · exact Or.inr ⟨List.mem_cons_of_mem a h2, h3⟩
    · rw [if_neg hw] at h
      rcases List.mem_cons.1 h with rfl | h4
      · exact Or.inr ⟨List.mem_cons_self c as, by simpa using hw⟩
      · rcases ih false c h4 with h1 | ⟨h2, h3⟩
        · exact Or.inl h1
        · exact Or.inr ⟨List.mem_cons_of_mem a h2, h3⟩

theorem collapseWSAux_id (l : List Char) (h : ∀ c ∈ l, goWhitespace c = false) :
    ∀ b, collapseWSAux b l = l := by
  induction l with
  | nil => intro b; rfl
  | cons a as ih =>
    intro b
    have ha := h a (List.mem_cons_self a as)
    unfold collapseWSAux
    rw [if_neg (by simp [ha])]
    rw [ih (fun c hc => h c (List.mem_cons_of_mem a hc)) false]

theorem head?_dropWhile_false {α : Type} (p : α → Bool) (l : List α) (c : α)
    (h : (l.dropWhile p).head? = some c) : p c = false := by
  have hm := List.head?_dropWhile_not p l
  rw [h] at hm
  exact hm

theorem getLast?_dropWhile_some {α : Type} (p : α → Bool) (l : List α) (c : α)
    (h : (l.dropWhile p).getLast? = some c) : l.getLast? = some c := by
  obtain ⟨t, ht⟩ := List.dropWhile_suffix (l := l) p
  rw [← ht, List.getLast?_append, h]
  rfl

theorem mem_trimHyphens (l : List Char) (c : Char) (h : c ∈ trimHyphens l) :
    c ∈ l := by
  unfold trimHyphens at h
  rw [List.mem_reverse] at h
  have h2 := List.dropWhile_subset (l := (l.dropWhile (fun c => c = '-')).reverse) _ h
  rw [List.mem_reverse] at h2
  exact List.dropWhile_subset _ h2

theorem trimHyphens_head (l : List Char) (c : Char)
    (h : (trimHyphens l).head? = some c) : c ≠ '-' := by
  intro hc
  subst hc
  unfold trimHyphens at h
  rw [List.head?_reverse] at h
  have h2 := getLast?_dropWhile_some _ _ _ h
  rw [List.getLast?_reverse] at h2
  have h3 := head?_dropWhile_false _ _ _ h2
  simp at h3

theorem trimHyphens_last (l : List Char) (c : Char)
    (h : (trimHyphens l).getLast? = some c) : c ≠ '-' := by
  intro hc
  subst hc
  unfold trimHyphens at h
  rw [List.getLast?_reverse] at h
  have h2 := head?_dropWhile_false _ _ _ h
  simp at h2

theorem dropWhile_eq_self_of_head (l : List Char) (h : l.head? ≠ some '-') :
    l.dropWhile (fun c => c = '-') = l := by
  cases l with
  | nil => rfl
  | cons a as =>
    have ha : a ≠ '-' := by
      intro hc; exact h (by rw [hc]; rfl)
    rw [List.dropWhile_cons_of_neg (by simpa using ha)]

theorem trimHyphens_id (l : List Char) (h1 : l.head? ≠ some '-')
    (h2 : l.getLast? ≠ some '-') : trimHyphens l = l := by
  unfold trimHyphens
  rw [dropWhile_eq_self_of_head l h1]
  rw [dropWhile_eq_self_of_head l.reverse (by rwa [List.head?_reverse])]
  exact List.reverse_reverse l

theorem slugChars_out (cs : List Char) :
    ∀ c ∈ slugChars cs, slugOutChar c = true := by
  intro c hc
  have h1 := mem_trimHyphens _ _ hc
  rcases mem_collapseWSAux _ _ _ h1 with rfl | ⟨h2, h3⟩
  · decide
  · exact slugOutChar_of_keep_not_ws c (List.of_mem_filter h2) h3

theorem slugChars_idem (cs : List Char) :
    slugChars (slugChars cs) = slugChars cs := by
  have hout := slugChars_out cs
  have hmap : (slugChars cs).map Char.toLower = slugChars cs := by
    rw [List.map_congr_left (fun c hc => toLower_of_out c (hout c hc))]
    exact List.map_id (slugChars cs)
  have hfil : (slugChars cs).filter slugKeep = slugChars cs :=
    List.filter_eq_self.2 (fun c hc => slugKeep_of_out c (hout c hc))
  have hws : collapseWS (slugChars cs) = slugChars cs :=
    collapseWSAux_id _ (fun c hc => goWhitespace_of_out c (hout c hc)) false
  have hhead : (slugChars cs).head? ≠ some '-' := by
    intro h; exact trimHyphens_head _ _ h rfl
  have hlast : (slugChars cs).getLast? ≠ some '-' := by
    intro h; exact trimHyphens_last _ _ h rfl
  show trimHyphens (collapseWS (((slugChars cs).map Char.toLower).filter slugKeep)) = slugChars cs
  rw [hmap, hfil, hws]
  exact trimHyphens_id _ hhead hlast

/-- C10: for every input string, slug returns a string whose characters
are only lowercase letters, digits, underscores and hyphens, with no
leading and no trailing hyphen, and slug is idempotent. -/
theorem c10_slug_charset_idempotent (s : String) :
    (∀ c ∈ (slug s).toList, slugOutChar c = true) ∧
    (slug s).toList.head? ≠ some '-' ∧
    (slug s).toList.getLast? ≠ some '-' ∧
    slug (slug s) = slug s := by
  have htl : (slug s).toList = slugChars s.toList := rfl
  refine ⟨?_, ?_, ?_, ?_⟩
  · rw [htl]; exact slugChars_out s.toList
  · rw [htl]; intro h; exact trimHyphens_head _ _ h rfl
  · rw [htl]; intro h; exact trimHyphens_last _ _ h rfl
  · show String.mk (slugChars (slug s).toList) = slug s
    rw [htl, slugChars_idem]
    rfl

/-- Witness for C10 at a concrete string and a concrete character of its
slug. -/
theorem c10_slug_witness :
    ('b' ∈ (slug "Birdman (2014)!").toList) ∧ slugOutChar 'b' = true ∧
    slug (slug "Birdman (2014)!") = slug "Birdman (2014)!" :=
  ⟨by decide, (c10_slug_charset_idempotent "Birdman (2014)!").1 'b' (by decide),
   (c10_slug_charset_idempotent "Birdman (2014)!").2.2.2⟩

/-- C5: RebuildIndex is idempotent: a second rebuild against the
filesystem left by a first rebuild produces the same movie index and
the same show index. -/
theorem c5_rebuild_idempotent (cfg : LibConfig) (s : LibState) :
    (rebuildIndexL cfg (rebuildIndexL cfg s).2).2.movieIndex
        = (rebuildIndexL cfg s).2.movieIndex ∧
    (rebuildIndexL cfg (rebuildIndexL cfg s).2).2.showIndex
        = (rebuildIndexL cfg s).2.showIndex :=
  ⟨rfl, rfl⟩

/-- C9: RebuildIndex unconditionally clears both indexes: the resulting
contents are exactly what the scans of the filesystem produce, two
states with the same filesystem rebuild to identical indexes whatever
their previous index contents, and the walk workers never report an
error, so nothing ever restores pre-call entries. -/
theorem c9_rebuild_discards_previous_indexes (cfg : LibConfig) (s t : LibState)
    (h : s.fs = t.fs) :
    (rebuildIndexL cfg s).2.movieIndex = buildMovieIndexFS cfg s.fs ∧
    (rebuildIndexL cfg s).2.showIndex = buildShowIndexFS cfg s.fs ∧
    (rebuildIndexL cfg s).2.movieIndex = (rebuildIndexL cfg t).2.movieIndex ∧
    (rebuildIndexL cfg s).2.showIndex = (rebuildIndexL cfg t).2.showIndex ∧
    (rebuildIndexL cfg s).1 = none := by
  refine ⟨rfl, rfl, ?_, ?_, rfl⟩
  · show buildMovieIndexFS cfg s.fs = buildMovieIndexFS cfg t.fs
    rw [h]
  · show buildShowIndexFS cfg s.fs = buildShowIndexFS cfg t.fs
    rw [h]

/-- Witness for C9: two states over the same filesystem, one with
populated indexes and one with empty indexes, rebuild identically. -/
theorem c9_rebuild_witness :
    stPopulatedW.fs = stBlankW.fs ∧
    (rebuildIndexL cfgW stPopulatedW).2.movieIndex
      = (rebuildIndexL cfgW stBlankW).2.movieIndex :=
  ⟨rfl, (c9_rebuild_discards_previous_indexes cfgW stPopulatedW stBlankW rfl).2.2.1⟩

theorem movieWalkStep_contNil (cfg : LibConfig) (fs : FS) (idx : MovieIndex)
    (e : WalkEntry) : (movieWalkStep cfg fs idx e).1 = .contNil := by
  cases e with
  | failed p => rfl
  | found p isDir =>
    simp only [movieWalkStep]
    split
    · rfl
    · split
      · rfl
      · split <;> rfl

theorem episodeWalkStep_contNil (cfg : LibConfig) (fs : FS) (imdbID : String)
    (idx : ShowIndex) (e : WalkEntry) :
    (episodeWalkStep cfg fs imdbID idx e).1 = .contNil := by
  cases e with
  | failed p => rfl
  | found p isDir =>
    simp only [episodeWalkStep]
    split
    · rfl
    · split
      · rfl
      · split <;> rfl

theorem runMovieWalk_ok (cfg : LibConfig) (fs : FS) (es : List WalkEntry) :
    ∀ idx, ∃ out, runMovieWalk cfg fs es idx = some (.ok out) := by
  induction es with
  | nil => intro idx; exact ⟨idx, rfl⟩
  | cons e es ih =>
    intro idx
    cases hm : movieWalkStep cfg fs idx e with
    | mk r idx1 =>
      have h' : r = .contNil := by
        have h := movieWalkStep_contNil cfg fs idx e
        rw [hm] at h
        exact h
      subst h'
      unfold runMovieWalk
      rw [hm]
      exact ih idx1

theorem runEpisodeWalk_ok (cfg : LibConfig) (fs : FS) (imdbID : String)
    (es : List WalkEntry) :
    ∀ idx, ∃ out, runEpisodeWalk cfg fs imdbID es idx = some (.ok out) := by
  induction es with
  | nil => intro idx; exact ⟨idx, rfl⟩
  | cons e es ih =>
    intro idx
    cases hm : episodeWalkStep cfg fs imdbID idx e with
    | mk r idx1 =>
      have h' : r = .contNil := by
        have h := episodeWalkStep_contNil cfg fs imdbID idx e
        rw [hm] at h
        exact h
      subst h'
      unfold runEpisodeWalk
      rw [hm]
      exact ih idx1

/-- C7 counterexample: a failure in walking the directory tree (an entry
whose lstat failed) does not cause the movie worker to return an error:
the callback swallows it, the walk ends successfully, and RebuildIndex
has nothing to report. -/
theorem c7_walk_error_swallowed_counterexample :
    runMovieWalk cfgW fsEmptyW [WalkEntry.failed ["movies", "sub"]] []
      = some (Except.ok []) := rfl

/-- C7 (amended): within each of the two cited scan workers, file-level
reconstruction failures are logged and skipped without aborting (the
callback leaves the index unchanged and continues), and walk failures
are swallowed by the callbacks as well, so the movie walk and the
episode walk always finish without returning an error. -/
theorem c7_scan_failures_nonfatal (cfg : LibConfig) (fs : FS)
    (es : List WalkEntry) (idx : MovieIndex) (sidx : ShowIndex)
    (imdbID : String) (p : GoPath) (err err2 : LibErr)
    (hext : videoExtMatch cfg p = true)
    (herrM : newMovieFromPath fs p = .error err)
    (herrE : newEpisodeFromPath fs p = .error err2) :
    movieWalkStep cfg fs idx (.found p false) = (.contNil, idx) ∧
    episodeWalkStep cfg fs imdbID sidx (.found p false) = (.contNil, sidx) ∧
    (∃ out, runMovieWalk cfg fs es idx = some (.ok out)) ∧
    (∃ out, runEpisodeWalk cfg fs imdbID es sidx = some (.ok out)) := by
  refine ⟨?_, ?_, runMovieWalk_ok cfg fs es idx, runEpisodeWalk_ok cfg fs imdbID es sidx⟩
  · simp [movieWalkStep, hext, herrM]
  · simp [episodeWalkStep, hext, herrE]

/-- Witness for C7 at concrete inputs: a video file with no readable
sidecar is skipped, and a walk over a failed entry ends without error. -/
theorem c7_scan_witness :
    videoExtMatch cfgW ["movies", "a.mkv"] = true ∧
    newMovieFromPath fsEmptyW ["movies", "a.mkv"] = .error .nfoReadError ∧
    movieWalkStep cfgW fsEmptyW [] (.found ["movies", "a.mkv"] false) = (.contNil, []) ∧
    (∃ out, runMovieWalk cfgW fsEmptyW [.failed ["movies", "x"]] [] = some (.ok out)) :=
  ⟨rfl, rfl,
   (c7_scan_failures_nonfatal cfgW fsEmptyW [.failed ["movies", "x"]] [] [] "tt"
      ["movies", "a.mkv"] .nfoReadError .nfoReadError rfl rfl rfl).1,
   (c7_scan_failures_nonfatal cfgW fsEmptyW [.failed ["movies", "x"]] [] [] "tt"
      ["movies", "a.mkv"] .nfoReadError .nfoReadError rfl rfl rfl).2.2.1⟩

/-- C8: on a walk error the buildShowIndex callback dereferences the nil
FileInfo it was handed (its first action is file.IsDir(), before any
check of err), while the buildMovieIndex and scanEpisodes callbacks
handle the same event by logging it and continuing. The show worker
therefore panics on a recoverable walk failure, contradicting the
claim that no core operation does. -/
theorem c8_show_walk_callback_nil_deref (cfg : LibConfig) (fs : FS)
    (rootWalked : Bool) (sidx : ShowIndex) (idx : MovieIndex)
    (imdbID : String) (p : GoPath) :
    (showWalkStep cfg fs rootWalked sidx (.failed p)).1 = .nilDeref ∧
    movieWalkStep cfg fs idx (.failed p) = (.contNil, idx) ∧
    episodeWalkStep cfg fs imdbID sidx (.failed p) = (.contNil, sidx) :=
  ⟨rfl, rfl, rfl⟩

/-- C3 counterexample: AddMovie can return MissingImageURL with the
ingest already partially applied: at this concrete input the call fails
with the missing-image error, yet the returned state has the movie
registered in the index and the sidecar written, neither of which held
before the call. -/
theorem c3_image_check_after_mutation_counterexample :
    (addMovieL cfgW movNoImageW stNoImageW).1 = some .missingMovieImageURL ∧
    mIdxHas (addMovieL cfgW movNoImageW stNoImageW).2.movieIndex "tt002" = true ∧
    hasFile (addMovieL cfgW movNoImageW stNoImageW).2.fs ["movies", "Bar", "bar.nfo"] = true ∧
    mIdxHas stNoImageW.movieIndex "tt002" = false ∧
    hasFile stNoImageW.fs ["movies", "Bar", "bar.nfo"] = false :=
  ⟨rfl, rfl, rfl, rfl, rfl⟩

/-- C3 (amended): when AddMovie or AddShowEpisode rejects the ingest
with the missing-file-path error, no mutation has occurred: the call
returns the state it started from. (The missing-image check, by
contrast, runs only after the move, the sidecar write and the index
registration, so those mutations persist on that failure.) -/
theorem c3_missing_path_no_mutation (cfg : LibConfig) (m : Movie)
    (ep : ShowEpisode) (s : LibState) (hm : m.path = []) (he : ep.path = []) :
    addMovieL cfg m s = (some .missingMovieFilePath, s) ∧
    addShowEpisodeL cfg ep s = (some .missingShowEpisodeFilePath, s) := by
  constructor
  · unfold addMovieL
    rw [if_pos hm]
  · unfold addShowEpisodeL
    rw [if_pos he]

/-- Witness for C3 at concrete pathless entities. -/
theorem c3_missing_path_witness :
    movPathlessW.path = ([] : GoPath) ∧ epPathlessW.path = ([] : GoPath) ∧
    addMovieL cfgW movPathlessW stNoImageW = (some .missingMovieFilePath, stNoImageW) ∧
    addShowEpisodeL cfgW epPathlessW stNoImageW = (some .missingShowEpisodeFilePath, stNoImageW) :=
  ⟨rfl, rfl,
   (c3_missing_path_no_mutation cfgW movPathlessW epPathlessW stNoImageW rfl rfl).1,
   (c3_missing_path_no_mutation cfgW movPathlessW epPathlessW stNoImageW rfl rfl).2⟩

/-- C2 counterexample: ingesting a movie already located in its
canonical directory returns success with the state completely
unchanged: in particular the sidecar has not been written and the movie
has not been registered in the index, against what the claim states. -/
theorem c2_in_place_counterexample :
    addMovieL cfgW movInPlaceW stInPlaceW = (none, stInPlaceW) ∧
    hasFile stInPlaceW.fs (nfoPathOf movInPlaceW.path) = false ∧
    mIdxHas (addMovieL cfgW movInPlaceW stInPlaceW).2.movieIndex movInPlaceW.imdbID = false :=
  ⟨rfl, rfl, rfl⟩

/-- C2 (amended): for a movie (resp. episode) that is not yet indexed
and whose source directory already equals the canonical destination,
AddMovie (resp. AddShowEpisode, when the show sidecar and season
directory already exist) performs no move and no link and returns
success immediately, without writing the entity sidecar and without
registering the entity in the index: the state is returned unchanged. -/
theorem c2_in_place_returns_untouched (cfg : LibConfig) (m : Movie)
    (ep : ShowEpisode) (s : LibState)
    (hm1 : m.path ≠ []) (hm2 : mIdxHas s.movieIndex m.imdbID = false)
    (hm3 : pathDir m.path = getMovieDirPath cfg m)
    (he1 : ep.path ≠ [])
    (he2 : sIdxHasEpisode s.showIndex ep.showImdbID ep.season ep.episode = false)
    (he3 : fsExists s.fs (showNFOPathOf (getShowDirPath cfg ep)) = true)
    (he4 : fsExists s.fs (getSeasonDirPath cfg ep) = true)
    (he5 : pathDir ep.path = getSeasonDirPath cfg ep) :
    addMovieL cfg m s = (none, s) ∧ addShowEpisodeL cfg ep s = (none, s) := by
  constructor
  · unfold addMovieL addMovieInstall
    simp [hm1, hm2, hm3]
  · unfold addShowEpisodeL addEpisodeInstall addShowL
    simp [he1, he2, he3, he4, he5]

/-- Witness for C2 at the concrete in-place fixtures. -/
theorem c2_in_place_witness :
    pathDir movInPlaceW.path = getMovieDirPath cfgW movInPlaceW ∧
    pathDir epInPlaceW.path = getSeasonDirPath cfgW epInPlaceW ∧
    addMovieL cfgW movInPlaceW stInPlaceW = (none, stInPlaceW) ∧
    addShowEpisodeL cfgW epInPlaceW stInPlaceW = (none, stInPlaceW) :=
  ⟨rfl, rfl,
   (c2_in_place_returns_untouched cfgW movInPlaceW epInPlaceW stInPlaceW
      (by decide) rfl rfl (by decide) rfl rfl rfl rfl).1,
   (c2_in_place_returns_untouched cfgW movInPlaceW epInPlaceW stInPlaceW
      (by decide) rfl rfl (by decide) rfl rfl rfl rfl).2⟩

theorem mIdxHas_filter_self (i : MovieIndex) (id : String) :
    mIdxHas (i.filter (fun e => e.1 ≠ id)) id = false := by
  simp only [mIdxHas]
  rw [Bool.eq_false_iff]
  intro hc
  rcases List.any_eq_true.1 hc with ⟨e, he, he2⟩
  rcases List.mem_filter.1 he with ⟨_, hne⟩
  simp only [decide_eq_true_eq] at he2 hne
  exact hne he2

/-- C6: DeleteMovie removes the containing directory of the movie
recursively and then removes the index entry, in that order: when the
directory removal fails the call surfaces the filesystem error with the
whole state, index included, untouched; when it succeeds on an indexed
movie, the directory subtree is gone from disk and the id is gone from
the index. -/
theorem c6_delete_movie_order_and_failure (m : Movie) (s : LibState) :
    (pathDir m.path ∈ s.fs.stuck → deleteMovieL m s = (some .fsError, s)) ∧
    (pathDir m.path ∉ s.fs.stuck → mIdxHas s.movieIndex m.imdbID = true →
      (deleteMovieL m s).1 = none ∧
      hasFile (deleteMovieL m s).2.fs m.path = false ∧
      hasDir (deleteMovieL m s).2.fs (pathDir m.path) = false ∧
      mIdxHas (deleteMovieL m s).2.movieIndex m.imdbID = false) := by
  constructor
  · intro hstuck
    unfold deleteMovieL removeAll
    rw [if_pos hstuck]
  · intro hstuck hhas
    have h1 : deleteMovieL m s
        = (none, { s with
                    fs := pruneFS s.fs (pathDir m.path)
                    movieIndex := s.movieIndex.filter (fun e => e.1 ≠ m.imdbID) }) := by
      unfold deleteMovieL removeAll mIdxRemove
      rw [if_neg hstuck, hhas]
      simp
    rw [h1]
    exact ⟨rfl, hasFile_pruneFS_below s.fs _ _ (pfxOf_dropLast m.path),
           hasDir_pruneFS_below s.fs _ _ (pfxOf_refl (pathDir m.path)),
           mIdxHas_filter_self s.movieIndex m.imdbID⟩

/-- Witness for C6 at concrete states: the stuck directory yields the
error with the state untouched; the unstuck one deletes directory and
index entry. -/
theorem c6_delete_movie_witness :
    (pathDir movInPlaceW.path ∈ stStuckW.fs.stuck) ∧
    deleteMovieL movInPlaceW stStuckW = (some .fsError, stStuckW) ∧
    (pathDir movInPlaceW.path ∉ stDelOkW.fs.stuck) ∧
    mIdxHas stDelOkW.movieIndex movInPlaceW.imdbID = true ∧
    (deleteMovieL movInPlaceW stDelOkW).1 = none ∧
    hasFile (deleteMovieL movInPlaceW stDelOkW).2.fs movInPlaceW.path = false ∧
    mIdxHas (deleteMovieL movInPlaceW stDelOkW).2.movieIndex movInPlaceW.imdbID = false := by
  refine ⟨by decide, (c6_delete_movie_order_and_failure movInPlaceW stStuckW).1 (by decide),
          by decide, rfl, ?_, ?_, ?_⟩
  · exact ((c6_delete_movie_order_and_failure movInPlaceW stDelOkW).2 (by decide) rfl).1
  · exact ((c6_delete_movie_order_and_failure movInPlaceW stDelOkW).2 (by decide) rfl).2.1
  · exact ((c6_delete_movie_order_and_failure movInPlaceW stDelOkW).2 (by decide) rfl).2.2.2

theorem hasFile_pruneFS_mono_false (fs : FS) (p q : GoPath)
    (h : hasFile fs q = false) : hasFile (pruneFS fs p) q = false := by
  simp only [hasFile, pruneFS] at h ⊢
  rw [Bool.eq_false_iff] at h ⊢
  intro hc
  rcases List.any_eq_true.1 hc with ⟨e, he, he2⟩
  exact h (List.any_eq_true.2 ⟨e, (List.mem_filter.1 he).1, he2⟩)

theorem hasDir_pruneFS_mono_false (fs : FS) (p q : GoPath)
    (h : hasDir fs q = false) : hasDir (pruneFS fs p) q = false := by
  simp only [hasDir, pruneFS] at h ⊢
  rw [Bool.eq_false_iff] at h ⊢
  intro hc
  rcases List.any_eq_true.1 hc with ⟨e, he, he2⟩
  exact h (List.any_eq_true.2 ⟨e, (List.mem_filter.1 he).1, he2⟩)

theorem pruneFS_stuck (fs : FS) (p : GoPath) : (pruneFS fs p).stuck = fs.stuck := rfl

theorem sIdxHasShow_removeShow (si : ShowIndex) (id : String) :
    sIdxHasShow (sIdxRemoveShow si id) id = false := by
  simp only [sIdxHasShow, sIdxRemoveShow]
  rw [Bool.eq_false_iff]
  intro hc
  rcases List.any_eq_true.1 hc with ⟨e, he, he2⟩
  rcases List.mem_filter.1 he with ⟨_, hne⟩
  simp only [decide_eq_true_eq] at he2 hne
  exact hne he2

theorem sIdxHasSeason_removeShow (si : ShowIndex) (id : String) (sn : Nat) :
    sIdxHasSeason (sIdxRemoveShow si id) id sn = false := by
  simp only [sIdxHasSeason, sIdxRemoveShow]
  rw [Bool.eq_false_iff]
  intro hc
  rcases List.any_eq_true.1 hc with ⟨e, he, he2⟩
  rcases List.mem_filter.1 he with ⟨_, hne⟩
  rw [Bool.and_eq_true] at he2
  obtain ⟨he3, _⟩ := he2
  simp only [decide_eq_true_eq] at he3 hne
  exact hne he3

theorem sIdxHasEpisode_removeShow (si : ShowIndex) (id : String) (sn en : Nat) :
    sIdxHasEpisode (sIdxRemoveShow si id) id sn en = false := by
  simp only [sIdxHasEpisode, sIdxRemoveShow]
  rw [Bool.eq_false_iff]
  intro hc
  rcases List.any_eq_true.1 hc with ⟨e, he, he2⟩
  rcases List.mem_filter.1 he with ⟨_, hne⟩
  rw [Bool.and_eq_true] at he2
  obtain ⟨he3, _⟩ := he2
  simp only [decide_eq_true_eq] at he3 hne
  exact hne he3

theorem seasons_nonEmpty_after_removeRaw (seasons : SeasonMap) (sn en : Nat)
    (h : seasons.all (fun sea => sea.1 = sn && sea.2.all (fun q => q.1 = en)) = true) :
    ((seasons.map (fun se =>
        if se.1 = sn then (se.1, se.2.filter (fun q => q.1 ≠ en)) else se)).any
      (fun sea => sea.1 = sn && !sea.2.isEmpty)) = false := by
  induction seasons with
  | nil => rfl
  | cons sea rest ih =>
    rw [List.all_cons, Bool.and_eq_true] at h
    obtain ⟨h1, h2⟩ := h
    rw [Bool.and_eq_true] at h1
    obtain ⟨hkey, heps⟩ := h1
    simp only [decide_eq_true_eq] at hkey
    rw [List.map_cons, List.any_cons, Bool.or_eq_false_iff]
    constructor
    · rw [if_pos hkey]
      have hfe : sea.2.filter (fun q => q.1 ≠ en) = [] := by
        rw [List.filter_eq_nil_iff]
        intro a ha
        have ha2 := List.all_eq_true.1 heps a ha
        simp only [decide_eq_true_eq] at ha2 ⊢
        simp [ha2]
      simp only [hfe, List.isEmpty_nil, Bool.not_true, Bool.and_false]
    · exact ih h2

theorem seasons_filter_after_removeRaw (seasons : SeasonMap) (sn en : Nat)
    (h : seasons.all (fun sea => sea.1 = sn && sea.2.all (fun q => q.1 = en)) = true) :
    ((seasons.map (fun se =>
        if se.1 = sn then (se.1, se.2.filter (fun q => q.1 ≠ en)) else se)).filter
      (fun se => se.1 ≠ sn)) = [] := by
  rw [List.filter_eq_nil_iff]
  intro a ha
  rcases List.mem_map.1 ha with ⟨sea, hsea, rfl⟩
  have h1 := List.all_eq_true.1 h sea hsea
  rw [Bool.and_eq_true] at h1
  obtain ⟨hk, _⟩ := h1
  simp only [decide_eq_true_eq] at hk
  rw [if_pos hk]
  simp [hk]

theorem seasonNonEmpty_removeRaw_of_sole (si : ShowIndex) (id : String) (sn en : Nat)
    (h : sIdxSoleEpisode si id sn en = true) :
    sIdxSeasonNonEmpty (sIdxRemoveEpisodeRaw si id sn en) id sn = false := by
  induction si with
  | nil => rfl
  | cons sh rest ih =>
    simp only [sIdxSoleEpisode, List.all_cons, Bool.and_eq_true] at h
    obtain ⟨h1, h2⟩ := h
    simp only [sIdxRemoveEpisodeRaw, List.map_cons]
    simp only [sIdxSeasonNonEmpty, List.any_cons]
    rw [Bool.or_eq_false_iff]
    constructor
    · by_cases hid : sh.1 = id
      · rw [if_pos hid]
        rw [Bool.or_eq_true] at h1
        rcases h1 with h1 | h1
        · simp only [decide_eq_true_eq] at h1
          exact absurd hid h1
        · have hany := seasons_nonEmpty_after_removeRaw sh.2 sn en h1
          simp only [hany, Bool.and_false]
      · rw [if_neg hid]
        simp [hid]
    · have hres := ih (by simpa [sIdxSoleEpisode] using h2)
      simpa [sIdxSeasonNonEmpty, sIdxRemoveEpisodeRaw] using hres

theorem showNonEmpty_removeSeason_of_sole (si : ShowIndex) (id : String) (sn en : Nat)
    (h : sIdxSoleEpisode si id sn en = true) :
    sIdxShowNonEmpty (sIdxRemoveSeason (sIdxRemoveEpisodeRaw si id sn en) id sn) id = false := by
  induction si with
  | nil => rfl
  | cons sh rest ih =>
    simp only [sIdxSoleEpisode, List.all_cons, Bool.and_eq_true] at h
    obtain ⟨h1, h2⟩ := h
    simp only [sIdxRemoveEpisodeRaw, sIdxRemoveSeason, List.map_cons]
    simp only [sIdxShowNonEmpty, List.any_cons]
    rw [Bool.or_eq_false_iff]
    constructor
    · by_cases hid : sh.1 = id
      · rw [if_pos hid]
        rw [Bool.or_eq_true] at h1
        rcases h1 with h1 | h1
        · simp only [decide_eq_true_eq] at h1
          exact absurd hid h1
        · rw [if_pos (by simpa using hid)]
          have hfil := seasons_filter_after_removeRaw sh.2 sn en h1
          simp only [hfil, List.isEmpty_nil, Bool.not_true, Bool.and_false]
      · rw [if_neg hid]
        rw [if_neg (by simpa using hid)]
        simp [hid]
    · have hres := ih (by simpa [sIdxSoleEpisode] using h2)
      simpa [sIdxShowNonEmpty, sIdxRemoveSeason, sIdxRemoveEpisodeRaw] using hres

theorem removeAll_nostuck (fs : FS) (p : GoPath) (h : fs.stuck = []) :
    removeAll fs p = .ok (pruneFS fs p) := by
  unfold removeAll
  rw [if_neg]
  rw [h]
  exact List.not_mem_nil p

theorem sIdxRemoveEpisode_of_has (si : ShowIndex) (id : String) (sn en : Nat)
    (h : sIdxHasEpisode si id sn en = true) :
    sIdxRemoveEpisode si id sn en = .ok (sIdxRemoveEpisodeRaw si id sn en) := by
  unfold sIdxRemoveEpisode
  rw [if_pos h]

theorem cascadeSeasonStep_empty (cfg : LibConfig) (se : ShowEpisode) (s : LibState)
    (hmt : sIdxIsSeasonEmpty s.showIndex se.showImdbID se.season = true)
    (h : s.fs.stuck = []) :
    cascadeSeasonStep cfg se s
      = (none, { s with
          fs := pruneFS s.fs (getSeasonDirPath cfg se)
          showIndex := sIdxRemoveSeason s.showIndex se.showImdbID se.season }) := by
  unfold cascadeSeasonStep
  rw [if_pos hmt, removeAll_nostuck _ _ h]

theorem cascadeShowStep_empty (cfg : LibConfig) (se : ShowEpisode) (s : LibState)
    (hmt : sIdxIsShowEmpty s.showIndex se.showImdbID = true)
    (h : s.fs.stuck = []) :
    cascadeShowStep cfg se s
      = (none, { s with
          fs := pruneFS s.fs (getShowDirPath cfg se)
          showIndex := sIdxRemoveShow s.showIndex se.showImdbID }) := by
  unfold cascadeShowStep
  rw [if_pos hmt, removeAll_nostuck _ _ h]

/-- C1: deleting an indexed episode removes the episode file, its
sidecar and its subtitle from disk and its entry from the show index;
and when it was the sole episode of a one-season show, the season
cascade fires first and the show cascade after it, so the season
directory and season entry and then the show directory and show entry
are all removed: the show disappears entirely. -/
theorem c1_delete_episode_cascade (cfg : LibConfig) (se : ShowEpisode) (s : LibState)
    (hidx : sIdxHasEpisode s.showIndex se.showImdbID se.season se.episode = true)
    (hstuck : s.fs.stuck = [])
    (hsole : sIdxSoleEpisode s.showIndex se.showImdbID se.season se.episode = true) :
    (deleteShowEpisodeL cfg se s).1 = none ∧
    hasFile (deleteShowEpisodeL cfg se s).2.fs se.path = false ∧
    hasFile (deleteShowEpisodeL cfg se s).2.fs (nfoPathOf se.path) = false ∧
    hasFile (deleteShowEpisodeL cfg se s).2.fs (srtPathOf se.path) = false ∧
    sIdxHasEpisode (deleteShowEpisodeL cfg se s).2.showIndex se.showImdbID se.season se.episode = false ∧
    sIdxHasSeason (deleteShowEpisodeL cfg se s).2.showIndex se.showImdbID se.season = false ∧
    sIdxHasShow (deleteShowEpisodeL cfg se s).2.showIndex se.showImdbID = false ∧
    hasDir (deleteShowEpisodeL cfg se s).2.fs (getSeasonDirPath cfg se) = false ∧
    hasDir (deleteShowEpisodeL cfg se s).2.fs (getShowDirPath cfg se) = false := by
  have hempty1 : sIdxIsSeasonEmpty
      (sIdxRemoveEpisodeRaw s.showIndex se.showImdbID se.season se.episode)
      se.showImdbID se.season = true := by
    unfold sIdxIsSeasonEmpty
    rw [seasonNonEmpty_removeRaw_of_sole _ _ _ _ hsole]
    rfl
  have hempty2 : sIdxIsShowEmpty
      (sIdxRemoveSeason (sIdxRemoveEpisodeRaw s.showIndex se.showImdbID se.season se.episode)
        se.showImdbID se.season) se.showImdbID = true := by
    unfold sIdxIsShowEmpty
    rw [showNonEmpty_removeSeason_of_sole _ _ _ _ hsole]
    rfl
  have h1 := removeAll_nostuck s.fs se.path hstuck
  have h2 := removeAll_nostuck (pruneFS s.fs se.path) (nfoPathOf se.path) hstuck
  have h3 := removeAll_nostuck (pruneFS (pruneFS s.fs se.path) (nfoPathOf se.path))
    (srtPathOf se.path) hstuck
  have h4 := sIdxRemoveEpisode_of_has s.showIndex se.showImdbID se.season se.episode hidx
  have h5 := cascadeSeasonStep_empty cfg se
    { s with
      fs := pruneFS (pruneFS (pruneFS s.fs se.path) (nfoPathOf se.path)) (srtPathOf se.path)
      showIndex := sIdxRemoveEpisodeRaw s.showIndex se.showImdbID se.season se.episode }
    hempty1 hstuck
  have h6 := cascadeShowStep_empty cfg se
    { s with
      fs := pruneFS (pruneFS (pruneFS (pruneFS s.fs se.path) (nfoPathOf se.path))
        (srtPathOf se.path)) (getSeasonDirPath cfg se)
      showIndex := sIdxRemoveSeason
        (sIdxRemoveEpisodeRaw s.showIndex se.showImdbID se.season se.episode)
        se.showImdbID se.season }
    hempty2 hstuck
  simp only [deleteShowEpisodeL, h1, h2, h3, h4, h5, h6]
  refine ⟨trivial, ?_, ?_, ?_,
    sIdxHasEpisode_removeShow _ _ _ _, sIdxHasSeason_removeShow _ _ _,
    sIdxHasShow_removeShow _ _, ?_, ?_⟩
  · exact hasFile_pruneFS_mono_false _ _ _ (hasFile_pruneFS_mono_false _ _ _
      (hasFile_pruneFS_mono_false _ _ _ (hasFile_pruneFS_mono_false _ _ _
        (hasFile_pruneFS_self s.fs se.path))))
  · exact hasFile_pruneFS_mono_false _ _ _ (hasFile_pruneFS_mono_false _ _ _
      (hasFile_pruneFS_mono_false _ _ _ (hasFile_pruneFS_self _ (nfoPathOf se.path))))
  · exact hasFile_pruneFS_mono_false _ _ _ (hasFile_pruneFS_mono_false _ _ _
      (hasFile_pruneFS_self _ (srtPathOf se.path)))
  · exact hasDir_pruneFS_mono_false _ _ _
      (hasDir_pruneFS_below _ _ _ (pfxOf_refl (getSeasonDirPath cfg se)))
  · exact hasDir_pruneFS_below _ _ _ (pfxOf_refl (getShowDirPath cfg se))

/-- Witness for C1: deleting the sole episode of the one-season show
tt100 succeeds, the show entry is gone from the index and the show
directory is gone from disk. -/
theorem c1_delete_episode_witness :
    sIdxHasEpisode stSoleW.showIndex "tt100" 1 1 = true ∧
    sIdxSoleEpisode stSoleW.showIndex "tt100" 1 1 = true ∧
    (deleteShowEpisodeL cfgW epSoleW stSoleW).1 = none ∧
    sIdxHasEpisode (deleteShowEpisodeL cfgW epSoleW stSoleW).2.showIndex "tt100" 1 1 = false ∧
    sIdxHasShow (deleteShowEpisodeL cfgW epSoleW stSoleW).2.showIndex "tt100" = false ∧
    hasDir (deleteShowEpisodeL cfgW epSoleW stSoleW).2.fs (getSeasonDirPath cfgW epSoleW) = false ∧
    hasDir (deleteShowEpisodeL cfgW epSoleW stSoleW).2.fs (getShowDirPath cfgW epSoleW) = false :=
  ⟨rfl, rfl,
   (c1_delete_episode_cascade cfgW epSoleW stSoleW rfl rfl rfl).1,
   (c1_delete_episode_cascade cfgW epSoleW stSoleW rfl rfl rfl).2.2.2.2.1,
   (c1_delete_episode_cascade cfgW epSoleW stSoleW rfl rfl rfl).2.2.2.2.2.2.1,
   (c1_delete_episode_cascade cfgW epSoleW stSoleW rfl rfl rfl).2.2.2.2.2.2.2.1,
   (c1_delete_episode_cascade cfgW epSoleW stSoleW rfl rfl rfl).2.2.2.2.2.2.2.2⟩

theorem any_filter_false {α : Type} (l : List α) (f g : α → Bool)
    (h : l.any f = false) : (l.filter g).any f = false := by
  rw [Bool.eq_false_iff] at h ⊢
  intro hc
  rcases List.any_eq_true.1 hc with ⟨e, he, he2⟩
  exact h (List.any_eq_true.2 ⟨e, (List.mem_filter.1 he).1, he2⟩)

theorem mIdxHas_of_lookup (i : MovieIndex) (id : String) (p : GoPath)
    (h : mIdxLookup i id = some p) : mIdxHas i id = true := by
  unfold mIdxLookup at h
  unfold mIdxHas
  cases hf : i.find? (fun e => e.1 = id) with
  | none => rw [hf] at h; cases h
  | some e =>
    have h2 := List.find?_some hf
    exact List.any_eq_true.2 ⟨e, List.mem_of_find?_eq_some hf, h2⟩

theorem mIdxLookup_add (i : MovieIndex) (id : String) (p : GoPath) :
    mIdxLookup (mIdxAdd i id p) id = some p := by
  unfold mIdxLookup mIdxAdd
  rw [List.find?_cons_of_pos]
  · rfl
  · simp

theorem hasFile_rename_false (fs : FS) (src dst q : GoPath) (fs' : FS)
    (hr : rename fs src dst = .ok fs') (hne : q ≠ dst)
    (hq : hasFile fs q = false) : hasFile fs' q = false := by
  unfold rename at hr
  cases hf : fs.files.find? (fun e => e.1 = src) with
  | none => rw [hf] at hr; cases hr
  | some entry =>
    rw [hf] at hr
    injection hr with hr
    subst hr
    simp only [hasFile, List.any_cons]
    rw [Bool.or_eq_false_iff]
    exact ⟨by simp [Ne.symm hne],
           any_filter_false _ _ _ (any_filter_false _ _ _ hq)⟩

theorem hasFile_rename_true_dst (fs : FS) (src dst : GoPath) (fs' : FS)
    (hr : rename fs src dst = .ok fs') : hasFile fs' dst = true := by
  unfold rename at hr
  cases hf : fs.files.find? (fun e => e.1 = src) with
  | none => rw [hf] at hr; cases hr
  | some entry =>
    rw [hf] at hr
    injection hr with hr
    subst hr
    simp [hasFile, List.any_cons]

theorem hasDir_rename_eq (fs : FS) (src dst q : GoPath) (fs' : FS)
    (hr : rename fs src dst = .ok fs') : hasDir fs' q = hasDir fs q := by
  unfold rename at hr
  cases hf : fs.files.find? (fun e => e.1 = src) with
  | none => rw [hf] at hr; cases hr
  | some entry =>
    rw [hf] at hr
    injection hr with hr
    subst hr
    rfl

theorem hasFile_symlink_false (fs : FS) (l q : GoPath) (h : q ≠ l)
    (hq : hasFile fs q = false) : hasFile (symlinkBestEffort fs l) q = false := by
  unfold symlinkBestEffort
  split
  · exact hq
  · simp only [hasFile, List.any_cons]
    rw [Bool.or_eq_false_iff]
    exact ⟨by simp [Ne.symm h], hq⟩

theorem hasDir_symlink_eq (fs : FS) (l q : GoPath) :
    hasDir (symlinkBestEffort fs l) q = hasDir fs q := by
  unfold symlinkBestEffort
  split <;> rfl

theorem hasFile_writeNFO_false (fs : FS) (p : GoPath) (d : NfoData) (q : GoPath)
    (h : q ≠ p) (hq : hasFile fs q = false) : hasFile (writeNFO fs p d) q = false := by
  simp only [hasFile, writeNFO, List.any_cons]
  rw [Bool.or_eq_false_iff]
  exact ⟨by simp [Ne.symm h], any_filter_false _ _ _ hq⟩

theorem hasFile_downloadTo_false (fs : FS) (p q : GoPath)
    (h : q ≠ p) (hq : hasFile fs q = false) : hasFile (downloadTo fs p) q = false := by
  simp only [hasFile, downloadTo, List.any_cons]
  rw [Bool.or_eq_false_iff]
  exact ⟨by simp [Ne.symm h], any_filter_false _ _ _ hq⟩

theorem mkdir_free (fs : FS) (p : GoPath) (h : fsExists fs p = false) :
    mkdir fs p = .ok { fs with dirs := p :: fs.dirs } := by
  unfold mkdir
  rw [h]
  rfl

theorem fsExists_pruneFS_self (fs : FS) (p : GoPath) :
    fsExists (pruneFS fs p) p = false := by
  unfold fsExists
  rw [hasFile_pruneFS_self, hasDir_pruneFS_below fs p p (pfxOf_refl p)]
  rfl

theorem hasDir_consDirs_false (fs : FS) (p q : GoPath) (h : p ≠ q)
    (hq : hasDir fs q = false) :
    hasDir { fs with dirs := p :: fs.dirs } q = false := by
  simp only [hasDir, List.any_cons]
  rw [Bool.or_eq_false_iff]
  exact ⟨by simp [h], hq⟩

theorem ne_of_pathDir_ne (q r : GoPath) (h : pathDir q ≠ pathDir r) : q ≠ r :=
  fun heq => h (by rw [heq])

theorem pathDir_nfoPathOf (p : GoPath) : pathDir (nfoPathOf p) = pathDir p :=
  pathDir_append_base _ _

theorem pathDir_fanartPathOf (p : GoPath) : pathDir (movieFanartPathOf p) = pathDir p :=
  pathDir_append_base _ _

theorem pathDir_thumbPathOf (p : GoPath) : pathDir (movieThumbPathOf p) = pathDir p :=
  pathDir_append_base _ _

theorem hasDir_pruneFS_of_not (fs : FS) (p q : GoPath)
    (h : pfxOf p q = false) (hq : hasDir fs q = true) :
    hasDir (pruneFS fs p) q = true := by
  simp only [hasDir, pruneFS] at hq ⊢
  rcases List.any_eq_true.1 hq with ⟨e, he, he2⟩
  refine List.any_eq_true.2 ⟨e, List.mem_filter.2 ⟨he, ?_⟩, he2⟩
  simp only [decide_eq_true_eq] at he2
  simp [he2, h]

theorem showNonEmpty_of_seasonNonEmpty (si : ShowIndex) (id : String) (sn : Nat)
    (h : sIdxSeasonNonEmpty si id sn = true) : sIdxShowNonEmpty si id = true := by
  rcases List.any_eq_true.1 h with ⟨sh, hsh, hc⟩
  rw [Bool.and_eq_true] at hc
  obtain ⟨hc1, hc2⟩ := hc
  refine List.any_eq_true.2 ⟨sh, hsh, ?_⟩
  rw [Bool.and_eq_true]
  refine ⟨hc1, ?_⟩
  cases hs2 : sh.2 with
  | nil => rw [hs2] at hc2; cases hc2
  | cons a l => rfl

theorem cascadeSeasonStep_noop (cfg : LibConfig) (se : ShowEpisode) (s : LibState)
    (h : sIdxIsSeasonEmpty s.showIndex se.showImdbID se.season = false) :
    cascadeSeasonStep cfg se s = (none, s) := by
  unfold cascadeSeasonStep
  rw [if_neg]
  simp [h]

theorem cascadeShowStep_noop (cfg : LibConfig) (se : ShowEpisode) (s : LibState)
    (h : sIdxIsShowEmpty s.showIndex se.showImdbID = false) :
    cascadeShowStep cfg se s = (none, s) := by
  unfold cascadeShowStep
  rw [if_neg]
  simp [h]

theorem epsAdd_find (eps : EpMap) (en : Nat) (p : GoPath) :
    ((epsAdd eps en p).find? (fun q => q.1 = en)).map (fun q => q.2) = some p := by
  unfold epsAdd
  rw [List.find?_cons_of_pos]
  · rfl
  · simp

theorem seasonsAdd_path (seasons : SeasonMap) (sn en : Nat) (p : GoPath) :
    (match (seasonsAdd seasons sn en p).find? (fun se => se.1 = sn) with
     | none => none
     | some se => (se.2.find? (fun q => q.1 = en)).map (fun q => q.2)) = some p := by
  induction seasons with
  | nil =>
    simp only [seasonsAdd]
    rw [List.find?_cons_of_pos _ (by simp)]
    exact epsAdd_find [] en p
  | cons sea rest ih =>
    by_cases hk : sea.1 = sn
    · rw [show seasonsAdd (sea :: rest) sn en p
          = (sea.1, epsAdd sea.2 en p) :: rest from by
        cases sea
        unfold seasonsAdd
        rw [if_pos hk]]
      rw [List.find?_cons_of_pos _ (by simp [hk])]
      exact epsAdd_find sea.2 en p
    · rw [show seasonsAdd (sea :: rest) sn en p
          = (sea.1, sea.2) :: seasonsAdd rest sn en p from by
        cases sea
        simp only [seasonsAdd]
        rw [if_neg hk]]
      rw [List.find?_cons_of_neg _ (by simp [hk])]
      exact ih

theorem sIdxEpisodePath_add (si : ShowIndex) (id : String) (sn en : Nat) (p : GoPath) :
    sIdxEpisodePath (sIdxAdd si id sn en p) id sn en = some p := by
  induction si with
  | nil =>
    unfold sIdxAdd sIdxEpisodePath
    rw [List.find?_cons_of_pos _ (by simp)]
    exact seasonsAdd_path [] sn en p
  | cons sh rest ih =>
    by_cases hk : sh.1 = id
    · rw [show sIdxAdd (sh :: rest) id sn en p
          = (sh.1, seasonsAdd sh.2 sn en p) :: rest from by
        cases sh
        unfold sIdxAdd
        rw [if_pos hk]]
      unfold sIdxEpisodePath
      rw [List.find?_cons_of_pos _ (by simp [hk])]
      exact seasonsAdd_path sh.2 sn en p
    · rw [show sIdxAdd (sh :: rest) id sn en p
          = (sh.1, sh.2) :: sIdxAdd rest id sn en p from by
        cases sh
        simp only [sIdxAdd]
        rw [if_neg hk]]
      unfold sIdxEpisodePath
      rw [List.find?_cons_of_neg _ (by simp [hk])]
      exact ih

theorem addShowL_nfo_exists (cfg : LibConfig) (ep : ShowEpisode) (s : LibState)
    (h : fsExists s.fs (showNFOPathOf (getShowDirPath cfg ep)) = true) :
    addShowL cfg ep s = (none, s) := by
  unfold addShowL
  rw [if_pos h]

theorem c4_duplicate_supersedes (cfg : LibConfig) (m : Movie) (s : LibState)
    (oldPath : GoPath)
    (h1 : m.path ≠ [])
    (h2 : mIdxLookup s.movieIndex m.imdbID = some oldPath)
    (h3 : fileData s.fs (nfoPathOf oldPath) = some (some (.movieNfo m.imdbID)))
    (h4 : s.fs.stuck = [])
    (h5 : pfxOf (pathDir oldPath) m.path = false)
    (h6 : pathDir m.path ≠ getMovieDirPath cfg m)
    (h7 : pfxOf (getMovieDirPath cfg m) m.path = false)
    (h8 : hasFile s.fs m.path = true)
    (h9 : pathDir oldPath ≠ getMovieDirPath cfg m)
    (h10 : m.fanart ≠ "") (h11 : m.thumb ≠ "")
    (ep : ShowEpisode) (t : LibState) (oldE : GoPath)
    (e1 : ep.path ≠ [])
    (e2 : sIdxEpisodePath t.showIndex ep.showImdbID ep.season ep.episode = some oldE)
    (e3 : fileData t.fs (nfoPathOf oldE)
      = some (some (.episodeNfo ep.showImdbID ep.showTitle ep.season ep.episode)))
    (e4 : t.fs.stuck = [])
    (e5 : sIdxHasEpisode t.showIndex ep.showImdbID ep.season ep.episode = true)
    (e6 : sIdxSeasonNonEmpty
      (sIdxRemoveEpisodeRaw t.showIndex ep.showImdbID ep.season ep.episode)
      ep.showImdbID ep.season = true)
    (e7 : hasFile t.fs (showNFOPathOf (getShowDirPath cfg ep)) = true)
    (e8 : pfxOf oldE (showNFOPathOf (getShowDirPath cfg ep)) = false)
    (e9 : pfxOf (nfoPathOf oldE) (showNFOPathOf (getShowDirPath cfg ep)) = false)
    (e10 : pfxOf (srtPathOf oldE) (showNFOPathOf (getShowDirPath cfg ep)) = false)
    (e11 : hasDir t.fs (getSeasonDirPath cfg ep) = true)
    (e12 : pfxOf oldE (getSeasonDirPath cfg ep) = false)
    (e13 : pfxOf (nfoPathOf oldE) (getSeasonDirPath cfg ep) = false)
    (e14 : pfxOf (srtPathOf oldE) (getSeasonDirPath cfg ep) = false)
    (e15 : hasFile t.fs ep.path = true)
    (e16 : pfxOf oldE ep.path = false)
    (e17 : pfxOf (nfoPathOf oldE) ep.path = false)
    (e18 : pfxOf (srtPathOf oldE) ep.path = false)
    (e19 : pathDir ep.path ≠ getSeasonDirPath cfg ep)
    (e20 : oldE ≠ getSeasonDirPath cfg ep ++ [pathBase ep.path])
    (e21 : oldE ≠ nfoPathOf (getSeasonDirPath cfg ep ++ [pathBase ep.path])) :
    (addMovieL cfg m s).1 = none ∧
    hasFile (addMovieL cfg m s).2.fs oldPath = false ∧
    hasDir (addMovieL cfg m s).2.fs (pathDir oldPath) = false ∧
    mIdxLookup (addMovieL cfg m s).2.movieIndex m.imdbID
      = some (getMovieDirPath cfg m ++ [pathBase m.path]) ∧
    (addShowEpisodeL cfg ep t).1 = none ∧
    hasFile (addShowEpisodeL cfg ep t).2.fs oldE = false ∧
    sIdxEpisodePath (addShowEpisodeL cfg ep t).2.showIndex ep.showImdbID ep.season ep.episode
      = some (getSeasonDirPath cfg ep ++ [pathBase ep.path]) := by
  have hHas := mIdxHas_of_lookup s.movieIndex m.imdbID oldPath h2
  have hget : getMovieL s m.imdbID
      = .ok { imdbID := m.imdbID, title := "", year := 0, path := oldPath, fanart := "", thumb := "" } := by
    unfold getMovieL
    simp only [h2]
    unfold newMovieFromPath
    simp only [h3]
  have hdel : deleteMovieL { imdbID := m.imdbID, title := "", year := 0, path := oldPath, fanart := "", thumb := "" } s
      = (none, { s with
          fs := pruneFS s.fs (pathDir oldPath)
          movieIndex := s.movieIndex.filter (fun e => e.1 ≠ m.imdbID) }) := by
    unfold deleteMovieL mIdxRemove
    rw [removeAll_nostuck _ _ h4]
    simp only [hHas, if_true]
  have hmain : addMovieL cfg m s
      = addMovieInstall cfg m { s with
          fs := pruneFS s.fs (pathDir oldPath)
          movieIndex := s.movieIndex.filter (fun e => e.1 ≠ m.imdbID) } := by
    unfold addMovieL
    rw [if_neg h1, if_pos hHas]
    simp only [hget, hdel]
  rw [hmain]
  have hs1stuck : (pruneFS s.fs (pathDir oldPath)).stuck = [] := h4
  have hOld1 : hasFile (pruneFS s.fs (pathDir oldPath)) oldPath = false :=
    hasFile_pruneFS_below _ _ _ (pfxOf_dropLast oldPath)
  have hOldD1 : hasDir (pruneFS s.fs (pathDir oldPath)) (pathDir oldPath) = false :=
    hasDir_pruneFS_below _ _ _ (pfxOf_refl _)
  have hSrc1 : hasFile (pruneFS s.fs (pathDir oldPath)) m.path = true :=
    hasFile_pruneFS_of_not _ _ _ h5 h8
  obtain ⟨fs2, hfs2, hP1, hP2, hP3, hP4⟩ :
      ∃ fs2, ((if fsExists (pruneFS s.fs (pathDir oldPath)) (getMovieDirPath cfg m)
                then removeAll (pruneFS s.fs (pathDir oldPath)) (getMovieDirPath cfg m)
                else Except.ok (pruneFS s.fs (pathDir oldPath))) = Except.ok fs2)
        ∧ fsExists fs2 (getMovieDirPath cfg m) = false
        ∧ hasFile fs2 m.path = true
        ∧ hasFile fs2 oldPath = false
        ∧ hasDir fs2 (pathDir oldPath) = false := by
    by_cases hex : fsExists (pruneFS s.fs (pathDir oldPath)) (getMovieDirPath cfg m) = true
    · refine ⟨pruneFS (pruneFS s.fs (pathDir oldPath)) (getMovieDirPath cfg m),
        ?_, fsExists_pruneFS_self _ _,
        hasFile_pruneFS_of_not _ _ _ h7 hSrc1,
        hasFile_pruneFS_mono_false _ _ _ hOld1,
        hasDir_pruneFS_mono_false _ _ _ hOldD1⟩
      rw [if_pos hex]
      exact removeAll_nostuck _ _ hs1stuck
    · refine ⟨pruneFS s.fs (pathDir oldPath), ?_, ?_, hSrc1, hOld1, hOldD1⟩
      · rw [if_neg hex]
      · simpa using hex
  have hmk := mkdir_free fs2 (getMovieDirPath cfg m) hP1
  obtain ⟨entry, hfind⟩ :
      ∃ entry, fs2.files.find? (fun e => e.1 = m.path) = some entry := by
    cases hf : fs2.files.find? (fun e => e.1 = m.path) with
    | none =>
      exfalso
      have hnone := List.find?_eq_none.1 hf
      rcases List.any_eq_true.1 hP2 with ⟨e, he, he2⟩
      exact absurd he2 (hnone e he)
    | some e => exact ⟨e, rfl⟩
  obtain ⟨fsR, hren⟩ :
      ∃ fs', rename { fs2 with dirs := getMovieDirPath cfg m :: fs2.dirs } m.path
        (getMovieDirPath cfg m ++ [pathBase m.path]) = Except.ok fs' := by
    unfold rename
    simp only [hfind]
    exact ⟨_, rfl⟩
  have oldEneSrc : oldE ≠ ep.path := by
    intro heq
    rw [heq] at e16
    rw [pfxOf_refl] at e16
    cases e16
  have hgetE : getEpisodeL t ep.showImdbID ep.season ep.episode
      = .ok { showImdbID := ep.showImdbID, showTitle := ep.showTitle, season := ep.season, episode := ep.episode, path := oldE, epShow := none } := by
    unfold getEpisodeL
    simp only [e2]
    unfold newEpisodeFromPath
    simp only [e3]
  have k1 := removeAll_nostuck t.fs oldE e4
  have k2 := removeAll_nostuck (pruneFS t.fs oldE) (nfoPathOf oldE) e4
  have k3 := removeAll_nostuck (pruneFS (pruneFS t.fs oldE) (nfoPathOf oldE)) (srtPathOf oldE) e4
  have k4 := sIdxRemoveEpisode_of_has t.showIndex ep.showImdbID ep.season ep.episode e5
  have hSeasonNE : sIdxIsSeasonEmpty
      (sIdxRemoveEpisodeRaw t.showIndex ep.showImdbID ep.season ep.episode)
      ep.showImdbID ep.season = false := by
    unfold sIdxIsSeasonEmpty
    rw [e6]
    rfl
  have hShowNE : sIdxIsShowEmpty
      (sIdxRemoveEpisodeRaw t.showIndex ep.showImdbID ep.season ep.episode)
      ep.showImdbID = false := by
    unfold sIdxIsShowEmpty
    rw [showNonEmpty_of_seasonNonEmpty _ _ _ e6]
    rfl
  have k5 := cascadeSeasonStep_noop cfg
    { showImdbID := ep.showImdbID, showTitle := ep.showTitle, season := ep.season, episode := ep.episode, path := oldE, epShow := none }
    ({ t with
      fs := pruneFS (pruneFS (pruneFS t.fs oldE) (nfoPathOf oldE)) (srtPathOf oldE)
      showIndex := sIdxRemoveEpisodeRaw t.showIndex ep.showImdbID ep.season ep.episode })
    hSeasonNE
  have k6 := cascadeShowStep_noop cfg
    { showImdbID := ep.showImdbID, showTitle := ep.showTitle, season := ep.season, episode := ep.episode, path := oldE, epShow := none }
    ({ t with
      fs := pruneFS (pruneFS (pruneFS t.fs oldE) (nfoPathOf oldE)) (srtPathOf oldE)
      showIndex := sIdxRemoveEpisodeRaw t.showIndex ep.showImdbID ep.season ep.episode })
    hShowNE
  have hdelE : deleteShowEpisodeL cfg
      { showImdbID := ep.showImdbID, showTitle := ep.showTitle, season := ep.season, episode := ep.episode, path := oldE, epShow := none } t
      = (none, { t with
      fs := pruneFS (pruneFS (pruneFS t.fs oldE) (nfoPathOf oldE)) (srtPathOf oldE)
      showIndex := sIdxRemoveEpisodeRaw t.showIndex ep.showImdbID ep.season ep.episode }) := by
    unfold deleteShowEpisodeL
    simp only [k1, k2, k3, k4, k5, k6]
  have hmainE : addShowEpisodeL cfg ep t
      = addEpisodeInstall cfg ep ({ t with
      fs := pruneFS (pruneFS (pruneFS t.fs oldE) (nfoPathOf oldE)) (srtPathOf oldE)
      showIndex := sIdxRemoveEpisodeRaw t.showIndex ep.showImdbID ep.season ep.episode }) := by
    unfold addShowEpisodeL
    rw [if_neg e1, if_pos e5]
    simp only [hgetE, hdelE]
  have hNfoPR3 : fsExists (pruneFS (pruneFS (pruneFS t.fs oldE) (nfoPathOf oldE)) (srtPathOf oldE)) (showNFOPathOf (getShowDirPath cfg ep)) = true := by
    unfold fsExists
    rw [hasFile_pruneFS_of_not _ _ _ e10 (hasFile_pruneFS_of_not _ _ _ e9
      (hasFile_pruneFS_of_not _ _ _ e8 e7))]
    rfl
  have hSdPR3 : fsExists (pruneFS (pruneFS (pruneFS t.fs oldE) (nfoPathOf oldE)) (srtPathOf oldE)) (getSeasonDirPath cfg ep) = true := by
    unfold fsExists
    rw [hasDir_pruneFS_of_not _ _ _ e14 (hasDir_pruneFS_of_not _ _ _ e13
      (hasDir_pruneFS_of_not _ _ _ e12 e11))]
    simp
  have hSrcPR3 : hasFile (pruneFS (pruneFS (pruneFS t.fs oldE) (nfoPathOf oldE)) (srtPathOf oldE)) ep.path = true :=
    hasFile_pruneFS_of_not _ _ _ e18 (hasFile_pruneFS_of_not _ _ _ e17
      (hasFile_pruneFS_of_not _ _ _ e16 e15))
  have haddShow := addShowL_nfo_exists cfg ep ({ t with
      fs := pruneFS (pruneFS (pruneFS t.fs oldE) (nfoPathOf oldE)) (srtPathOf oldE)
      showIndex := sIdxRemoveEpisodeRaw t.showIndex ep.showImdbID ep.season ep.episode }) hNfoPR3
  have hseasonIf : (if (!fsExists (pruneFS (pruneFS (pruneFS t.fs oldE) (nfoPathOf oldE)) (srtPathOf oldE)) (getSeasonDirPath cfg ep)) = true
      then mkdir (pruneFS (pruneFS (pruneFS t.fs oldE) (nfoPathOf oldE)) (srtPathOf oldE)) (getSeasonDirPath cfg ep)
      else Except.ok (pruneFS (pruneFS (pruneFS t.fs oldE) (nfoPathOf oldE)) (srtPathOf oldE))) = Except.ok (pruneFS (pruneFS (pruneFS t.fs oldE) (nfoPathOf oldE)) (srtPathOf oldE)) := by
    have hc : ¬ ((!fsExists (pruneFS (pruneFS (pruneFS t.fs oldE) (nfoPathOf oldE)) (srtPathOf oldE)) (getSeasonDirPath cfg ep)) = true) := by
      rw [hSdPR3]
      decide
    rw [if_neg hc]
  obtain ⟨entryE, hfindE⟩ :
      ∃ e, (pruneFS (pruneFS (pruneFS t.fs oldE) (nfoPathOf oldE)) (srtPathOf oldE)).files.find? (fun q => q.1 = ep.path) = some e := by
    cases hf : (pruneFS (pruneFS (pruneFS t.fs oldE) (nfoPathOf oldE)) (srtPathOf oldE)).files.find? (fun q => q.1 = ep.path) with
    | none =>
      exfalso
      have hnone := List.find?_eq_none.1 hf
      rcases List.any_eq_true.1 hSrcPR3 with ⟨e, he, he2⟩
      exact absurd he2 (hnone e he)
    | some e => exact ⟨e, rfl⟩
  obtain ⟨fsRE, hrenE⟩ :
      ∃ fs', rename (pruneFS (pruneFS (pruneFS t.fs oldE) (nfoPathOf oldE)) (srtPathOf oldE)) ep.path
        (getSeasonDirPath cfg ep ++ [pathBase ep.path]) = Except.ok fs' := by
    unfold rename
    simp only [hfindE]
    exact ⟨_, rfl⟩
  have himg : ¬ ((m.fanart = "" || m.thumb = "") = true) := by
    simp [h10, h11]
  rw [hmainE]
  unfold addMovieInstall
  rw [if_neg h6]
  simp only [hfs2, hmk, hren, if_neg himg]
  unfold addEpisodeInstall
  simp only [haddShow, hseasonIf, if_neg e19, hrenE]
  refine ⟨trivial, ?_, ?_, mIdxLookup_add _ _ _, trivial, ?_, sIdxEpisodePath_add _ _ _ _ _⟩
  · have eNew : oldPath ≠ getMovieDirPath cfg m ++ [pathBase m.path] :=
      ne_of_pathDir_ne _ _ (by rw [pathDir_append_base]; exact h9)
    have eSym : oldPath ≠ m.path := by
      intro heq
      rw [← heq] at h5
      rw [pfxOf_dropLast] at h5
      cases h5
    have eNfo : oldPath ≠ nfoPathOf (getMovieDirPath cfg m ++ [pathBase m.path]) :=
      ne_of_pathDir_ne _ _ (by rw [pathDir_nfoPathOf, pathDir_append_base]; exact h9)
    have eFan : oldPath ≠ movieFanartPathOf (getMovieDirPath cfg m ++ [pathBase m.path]) :=
      ne_of_pathDir_ne _ _ (by rw [pathDir_fanartPathOf, pathDir_append_base]; exact h9)
    have eTh : oldPath ≠ movieThumbPathOf (getMovieDirPath cfg m ++ [pathBase m.path]) :=
      ne_of_pathDir_ne _ _ (by rw [pathDir_thumbPathOf, pathDir_append_base]; exact h9)
    have d1 : hasFile fsR oldPath = false :=
      hasFile_rename_false _ _ _ _ _ hren eNew hP3
    have d2 : hasFile (symlinkBestEffort fsR m.path) oldPath = false :=
      hasFile_symlink_false _ _ _ eSym d1
    have d3 := hasFile_writeNFO_false (symlinkBestEffort fsR m.path)
      (nfoPathOf (getMovieDirPath cfg m ++ [pathBase m.path])) (NfoData.movieNfo m.imdbID)
      oldPath eNfo d2
    have d4 := hasFile_downloadTo_false _ (movieFanartPathOf (getMovieDirPath cfg m ++ [pathBase m.path]))
      oldPath eFan d3
    exact hasFile_downloadTo_false _ (movieThumbPathOf (getMovieDirPath cfg m ++ [pathBase m.path]))
      oldPath eTh d4
  · have d2 : hasDir ({ files := fs2.files, dirs := getMovieDirPath cfg m :: fs2.dirs, stuck := fs2.stuck } : FS)
        (pathDir oldPath) = false :=
      hasDir_consDirs_false fs2 _ _ (Ne.symm h9) hP4
    have d3 : hasDir fsR (pathDir oldPath) = false := by
      rw [hasDir_rename_eq _ _ _ _ _ hren]
      exact d2
    have d4 : hasDir (symlinkBestEffort fsR m.path) (pathDir oldPath) = false := by
      rw [hasDir_symlink_eq]
      exact d3
    exact d4
  · have b1 : hasFile (pruneFS t.fs oldE) oldE = false := hasFile_pruneFS_self t.fs oldE
    have b2 : hasFile (pruneFS (pruneFS (pruneFS t.fs oldE) (nfoPathOf oldE)) (srtPathOf oldE)) oldE = false :=
      hasFile_pruneFS_mono_false _ _ _ (hasFile_pruneFS_mono_false _ _ _ b1)
    have b3 : hasFile fsRE oldE = false := hasFile_rename_false _ _ _ _ _ hrenE e20 b2
    have b4 : hasFile (symlinkBestEffort fsRE ep.path) oldE = false :=
      hasFile_symlink_false _ _ _ oldEneSrc b3
    exact hasFile_writeNFO_false _ _ _ _ e21 b4

/-- Witness for C4: re-ingesting tt001 deletes the old directory before
installing the new copy, and re-ingesting the episode deletes the old
episode file; both indexes end up mapping the identifier to the new
path only. -/
theorem c4_duplicate_witness :
    mIdxLookup sDupW.movieIndex "tt001" = some ["movies", "Old (2019)", "old.mkv"] ∧
    (addMovieL cfgW movDupW sDupW).1 = none ∧
    hasFile (addMovieL cfgW movDupW sDupW).2.fs ["movies", "Old (2019)", "old.mkv"] = false ∧
    mIdxLookup (addMovieL cfgW movDupW sDupW).2.movieIndex "tt001"
      = some (getMovieDirPath cfgW movDupW ++ [pathBase movDupW.path]) ∧
    (addShowEpisodeL cfgW epDupW tDupW).1 = none ∧
    hasFile (addShowEpisodeL cfgW epDupW tDupW).2.fs ["shows", "Baz", "Season 1", "old1.mkv"] = false ∧
    sIdxEpisodePath (addShowEpisodeL cfgW epDupW tDupW).2.showIndex "tt100" 1 1
      = some (getSeasonDirPath cfgW epDupW ++ [pathBase epDupW.path]) := by
  have H := c4_duplicate_supersedes cfgW movDupW sDupW ["movies", "Old (2019)", "old.mkv"]
    (by decide) rfl rfl rfl rfl (by decide) rfl rfl (by decide) (by decide) (by decide)
    epDupW tDupW ["shows", "Baz", "Season 1", "old1.mkv"]
    (by decide) rfl rfl rfl rfl rfl rfl rfl rfl rfl rfl rfl rfl rfl rfl rfl rfl rfl
    (by decide) (by decide) (by decide)
  exact ⟨rfl, H.1, H.2.1, H.2.2.2.1, H.2.2.2.2.1, H.2.2.2.2.2.1, H.2.2.2.2.2.2⟩
